import Mathlib

/-!
Rectangle Run: the per-frame simulation of `src/main.cpp`

A shallow embedding of the frame loop of `main` (events, time step, platform
advance and recycle, the PLAYING physics, the TITLE pose), followed by
theorems about it.

Modelling conventions.

* C++ `float` values are rationals (`ℚ`): arithmetic is exact, there is no
  rounding, no NaN and no infinity.  Theorems about exact values (a snap to
  `pl.y - 22`, the rest position 266) concern small integers, which `float`
  represents exactly.
* C++ `int` values are `Int`; the program's integers stay far from the 32-bit
  range, so no wrap-around is modelled.  The conversion `(int)f` truncates
  toward zero; its undefined case (a float outside the `int` range) is not
  modelled.  `Uint32` tick counts are `Nat`,
  reduced modulo `2 ^ 32` where the source subtracts them.
* `std::rand()` is a stream `rand : Nat → Nat`: `rand k` is the result of the
  `k`-th call.  The world carries the number of calls made so far.
* `plats[standingPlatform]` with an index outside the vector is undefined in
  the source; the functions on that path return `Option`, and `none` stands
  for that undefined access.
* Rendering, the window title and the frame-pacing sleep are left out: they
  read the state and do not write it.
-/

namespace RectangleRun

/-! ## Constants -/

/-- Source: `static const int WIDTH = 300;` -/
def WIDTH : Int := 300
/-- Source: `static const int HEIGHT = 300;` -/
def HEIGHT : Int := 300
/-- Source: `const int PLAT_COUNT = 24;` -/
def PLAT_COUNT : Nat := 24
/-- Source: `const int SPIKE_H = 12;` -/
def SPIKE_H : Int := 12
/-- Source: `const int spikeTop = HEIGHT - SPIKE_H;` -/
def spikeTop : Int := HEIGHT - SPIKE_H
/-- Source: `const float moveSpeed = 120.0f;` -/
def moveSpeed : ℚ := 120
/-- Source: `const float gravity = 600.0f;` -/
def gravity : ℚ := 600
/-- Source: `const float jumpVel = -260.0f;` -/
def jumpVel : ℚ := -260
/-- Source: `const float scrollAccel = 3.0f;` -/
def scrollAccel : ℚ := 3
/-- The field `player.w`, set to 22 at construction and never assigned. -/
def player_w : Int := 22
/-- The field `player.h`, set to 22 at construction and never assigned. -/
def player_h : Int := 22
/-- The clamp of the time step, `0.033f`. -/
def dtMax : ℚ := 33 / 1000

/-! ## Data -/

/-- The type `SDL_Rect`: integer position and size. -/
structure Rect where
  x : Int
  y : Int
  w : Int
  h : Int
  deriving DecidableEq

/-- Source: `enum GameState { TITLE, PLAYING };` -/
inductive GameState where
  | TITLE
  | PLAYING
  deriving DecidableEq

/-- The key symbols the event loop tests; every other key is `other`. -/
inductive Key where
  | ESCAPE
  | RETURN
  | KP_ENTER
  | SPACE
  | UP
  | r
  | other
  deriving DecidableEq

/-- An `SDL_Event` as far as the loop looks at it. -/
inductive Event where
  | quit
  | keydown (sym : Key)
  | other
  deriving DecidableEq

/-- The four entries of `SDL_GetKeyboardState` that the update reads. -/
structure Keys where
  left : Bool
  a : Bool
  right : Bool
  d : Bool
  deriving DecidableEq

/-- The mutable variables of `main` that the simulation writes. -/
structure World where
  /-- The field `player.x`. -/
  playerX : Int
  /-- The field `player.y`. -/
  playerY : Int
  px : ℚ
  py : ℚ
  vx : ℚ
  vy : ℚ
  onGround : Bool
  standingPlatform : Int
  prevPy : ℚ
  plats : List Rect
  scrollSpeed : ℚ
  tStart : Nat
  state : GameState
  running : Bool
  prevTicks : Nat
  /-- Number of `std::rand()` calls made so far. -/
  randCalls : Nat
  deriving DecidableEq

/-- What one pass of the loop reads from outside: the polled events, each with
the value `SDL_GetTicks()` would return while it is handled, the clock reading
after the event loop, and the held keys. -/
structure FrameInput where
  events : List (Nat × Event)
  now : Nat
  keys : Keys

/-! ## Helpers -/

/-- The conversion `(int)f` of a float: truncation toward zero. -/
def castInt (q : ℚ) : Int := if 0 ≤ q then ⌊q⌋ else ⌈q⌉

/-- The function `irand(lo, hi)`, given the result `r` of its `std::rand()` call:
`lo + (r % std::max(1, hi - lo))`.  The dividend is non-negative and the
divisor positive, where C++ `%` and `Int` `%` agree. -/
def irand (r : Nat) (lo hi : Int) : Int := lo + (r : Int) % max 1 (hi - lo)

/-! ## Platforms -/

/-- One iteration of the creation loop: `w`, then `x`, then `y`. -/
def newPlat (rand : Nat → Nat) (c : Nat) : Rect :=
  let w := irand (rand c) 30 65
  let x := irand (rand (c + 1)) 0 (WIDTH - w)
  let y := irand (rand (c + 2)) (-HEIGHT) HEIGHT
  { x := x, y := y, w := w, h := 10 }

/-- The creation loop: `n` platforms pushed in order, three `rand` calls each,
starting at call number `c`. -/
def createPlats (rand : Nat → Nat) : Nat → Nat → List Rect
  | 0, _ => []
  | n + 1, c => newPlat rand c :: createPlats rand n (c + 3)

/-- The body of the `reshufflePlats` loop: `y`, then `w`, then `x`. -/
def reshuffleOne (rand : Nat → Nat) (c : Nat) (p : Rect) : Rect :=
  let y := irand (rand c) (-HEIGHT) HEIGHT
  let w := irand (rand (c + 1)) 30 65
  let x := irand (rand (c + 2)) 0 (WIDTH - w)
  { p with x := x, y := y, w := w }

/-- The lambda `reshufflePlats`, over the platforms in order. -/
def reshufflePlats (rand : Nat → Nat) : Nat → List Rect → List Rect
  | _, [] => []
  | c, p :: ps => reshuffleOne rand c p :: reshufflePlats rand (c + 3) ps

/-- The body of the advance loop for one platform: move down by `dy`, and
respawn above the screen when the platform has left the field.  Returns the
platform and the call counter. -/
def advanceOne (rand : Nat → Nat) (dy : Int) (c : Nat) (p : Rect) : Rect × Nat :=
  let y1 := p.y + dy
  if y1 > HEIGHT then
    let y := irand (rand c) (-80) (-10)
    let w := irand (rand (c + 1)) 30 65
    let x := irand (rand (c + 2)) 0 (WIDTH - w)
    ({ p with x := x, y := y, w := w }, c + 3)
  else
    ({ p with y := y1 }, c)

/-- The advance loop over the platforms in order. -/
def advancePlats (rand : Nat → Nat) (dy : Int) : Nat → List Rect → List Rect × Nat
  | c, [] => ([], c)
  | c, p :: ps =>
    ((advanceOne rand dy c p).1 :: (advancePlats rand dy (advanceOne rand dy c p).2 ps).1,
      (advancePlats rand dy (advanceOne rand dy c p).2 ps).2)

/-! ## Resets -/

/-- The lambda `centerPlayer`. -/
def centerPlayer (w : World) : World :=
  { w with
    px := ((WIDTH / 2 - player_w / 2 : Int) : ℚ)
    py := ((spikeTop - player_h : Int) : ℚ)
    vx := 0
    vy := 0
    onGround := true
    standingPlatform := -1 }

/-- The lambda `resetRun`, with its default argument `resetSpeed = true` (the
only way it is called). -/
def resetRun (rand : Nat → Nat) (w : World) : World :=
  let w1 := centerPlayer w
  { w1 with
    scrollSpeed := 80
    plats := reshufflePlats rand w1.randCalls w1.plats
    randCalls := w1.randCalls + 3 * w1.plats.length }

/-- The state of `main` when the loop is entered: the player centered on the
ground, `PLAT_COUNT` random platforms, then `resetRun()`.  `t0` is the first
reading of the clock. -/
def initWorld (rand : Nat → Nat) (t0 : Nat) : World :=
  resetRun rand
    { playerX := WIDTH / 2 - 11
      playerY := HEIGHT - 12 - 22
      px := ((WIDTH / 2 - 11 : Int) : ℚ)
      py := ((HEIGHT - 12 - 22 : Int) : ℚ)
      vx := 0
      vy := 0
      onGround := true
      standingPlatform := -1
      prevPy := ((HEIGHT - 12 - 22 : Int) : ℚ)
      plats := createPlats rand PLAT_COUNT 0
      scrollSpeed := 80
      tStart := 0
      state := GameState.TITLE
      running := true
      prevTicks := t0
      randCalls := 3 * PLAT_COUNT }

/-! ## Events -/

/-- The body of the `SDL_PollEvent` loop for one event; `ticks` is what
`SDL_GetTicks()` returns while it is handled. -/
def handleEvent (rand : Nat → Nat) (ticks : Nat) (w : World) (e : Event) : World :=
  match e with
  | Event.quit => { w with running := false }
  | Event.other => w
  | Event.keydown sym =>
    let w1 := if sym = Key.ESCAPE then { w with running := false } else w
    if w1.state = GameState.TITLE then
      if sym = Key.RETURN ∨ sym = Key.KP_ENTER then
        { w1 with tStart := ticks, state := GameState.PLAYING }
      else w1
    else
      let w2 :=
        if sym = Key.SPACE ∨ sym = Key.UP then
          if w1.onGround = true ∨ w1.standingPlatform ≠ -1 then
            { w1 with vy := jumpVel, onGround := false, standingPlatform := -1 }
          else w1
        else w1
      if sym = Key.r then { resetRun rand w2 with state := GameState.TITLE } else w2

/-! ## The time step -/

/-- The clamp `if (dt > 0.033f) dt = 0.033f;`. -/
def clampDt (dt : ℚ) : ℚ := if dt > dtMax then dtMax else dt

/-- The time step of a frame: `(now - prevTicks) * 0.001f` on `Uint32` ticks,
then the clamp. -/
def frameDt (prevTicks now : Nat) : ℚ :=
  clampDt ((((now % 2 ^ 32 + 2 ^ 32 - prevTicks % 2 ^ 32) % 2 ^ 32 : Nat) : ℚ) * (1 / 1000))

/-! ## Update -/

/-- The platform part of the update, run in both states: the scroll speed
grows, and every platform moves down by `(int)platDy`. -/
def advance (rand : Nat → Nat) (dt : ℚ) (w : World) : World :=
  let scrollSpeed := w.scrollSpeed + scrollAccel * dt
  let platDy := scrollSpeed * dt
  let r := advancePlats rand (castInt platDy) w.randCalls w.plats
  { w with scrollSpeed := scrollSpeed, plats := r.1, randCalls := r.2 }

/-- The block "input (held)". -/
def heldInput (k : Keys) (w : World) : World :=
  let vx0 : ℚ := 0
  let vx1 := if k.left || k.a then vx0 - moveSpeed else vx0
  let vx2 := if k.right || k.d then vx1 + moveSpeed else vx1
  { w with vx := vx2 }

/-- The block "physics integrate". -/
def integrate (dt : ℚ) (w : World) : World :=
  let vy1 := if w.standingPlatform = -1 then w.vy + gravity * dt else w.vy
  { w with prevPy := w.py, vy := vy1, px := w.px + w.vx * dt, py := w.py + vy1 * dt }

/-- The block "walls". -/
def walls (w : World) : World :=
  let px1 := if w.px < 0 then 0 else w.px
  let px2 := if px1 + (player_w : ℚ) > (WIDTH : ℚ) then ((WIDTH - player_w : Int) : ℚ) else px1
  { w with px := px2 }

/-- The condition of the block "SPIKE DEATH":
`vy > 0.0f && prevFeet < spikeTop && curFeet >= spikeTop`. -/
def spikeCrossed (w : World) : Bool :=
  decide (w.vy > 0) && decide (w.prevPy + (player_h : ℚ) < (spikeTop : ℚ))
    && decide (w.py + (player_h : ℚ) ≥ (spikeTop : ℚ))

/-- The block "ground clamp". -/
def groundClamp (w : World) : World :=
  if w.py + (player_h : ℚ) ≥ (spikeTop : ℚ) then
    { w with
      py := ((spikeTop - player_h : Int) : ℚ)
      vy := 0
      onGround := true
      standingPlatform := -1 }
  else w

/-- The block "write back rect". -/
def writeBack (w : World) : World :=
  { w with playerX := castInt w.px, playerY := castInt w.py }

/-- The test `overHoriz` / `horiz` of the player's rectangle against a platform. -/
def overHoriz (w : World) (pl : Rect) : Bool :=
  decide (w.playerX + player_w > pl.x) && decide (w.playerX < pl.x + pl.w)

/-- The block "riding".  `none` is the undefined access `plats[standingPlatform]`
with the index outside the vector. -/
def riding (w : World) : Option World :=
  if w.standingPlatform ≠ -1 then
    if 0 ≤ w.standingPlatform then
      match w.plats[w.standingPlatform.toNat]? with
      | none => none
      | some pl =>
        let w1 : World :=
          { w with
            py := ((pl.y - player_h : Int) : ℚ)
            playerY := castInt ((pl.y - player_h : Int) : ℚ)
            vy := 0
            onGround := true }
        let nearTop := decide (|(w1.playerY + player_h) - pl.y| ≤ 2)
        if !(overHoriz w1 pl) || !nearTop then
          some { w1 with standingPlatform := -1, onGround := false }
        else some w1
    else none
  else some w

/-- The test `crossedTop` of the landing scan. -/
def crossedTop (w : World) (prevFeet curFeet : ℚ) (pl : Rect) : Bool :=
  decide (w.vy > 0) && decide (prevFeet ≤ (pl.y : ℚ)) && decide (curFeet ≥ (pl.y : ℚ))

/-- The `for` loop of the landing scan, from index `i` over the platforms that
remain; it stops at the first match. -/
def landingScan (w : World) (prevFeet curFeet : ℚ) : Nat → List Rect → World
  | _, [] => w
  | i, pl :: rest =>
    if overHoriz w pl && crossedTop w prevFeet curFeet pl then
      { w with
        py := ((pl.y - player_h : Int) : ℚ)
        playerY := castInt ((pl.y - player_h : Int) : ℚ)
        vy := 0
        onGround := true
        standingPlatform := (i : Int) }
    else landingScan w prevFeet curFeet (i + 1) rest

/-- The block "landing from above". -/
def landing (w : World) : World :=
  if w.standingPlatform = -1 ∧ w.onGround = false then
    landingScan w (w.prevPy + (player_h : ℚ)) (w.py + (player_h : ℚ)) 0 w.plats
  else w

/-- The PLAYING branch of the update.  On a spike crossing the run is reset and
the rest of the frame is skipped (`continue`). -/
def playing (rand : Nat → Nat) (dt : ℚ) (k : Keys) (w : World) : Option World :=
  let w1 := walls (integrate dt (heldInput k w))
  if spikeCrossed w1 then
    some { resetRun rand w1 with state := GameState.TITLE }
  else
    (riding (writeBack (groundClamp { w1 with onGround := false }))).map landing

/-- The TITLE branch of the update. -/
def title (w : World) : World := writeBack (centerPlayer w)

/-- The section "update" of the loop body for a time step `dt`. -/
def update (rand : Nat → Nat) (dt : ℚ) (k : Keys) (w : World) : Option World :=
  let w1 := advance rand dt w
  if w1.state = GameState.PLAYING then playing rand dt k w1 else some (title w1)

/-- One pass of the loop body: the events, the time step, the update. -/
def frame (rand : Nat → Nat) (inp : FrameInput) (w : World) : Option World :=
  let w1 := inp.events.foldl (fun acc e => handleEvent rand e.1 acc e.2) w
  update rand (frameDt w1.prevTicks inp.now) inp.keys { w1 with prevTicks := inp.now }

/-- The states of the loop: the state at entry, and the state after each pass
made while `running` holds. -/
inductive Reachable (rand : Nat → Nat) : World → Prop where
  | init (t0 : Nat) : Reachable rand (initWorld rand t0)
  | step {w w1 : World} (inp : FrameInput) :
      Reachable rand w → w.running = true → frame rand inp w = some w1 → Reachable rand w1

/-! ## The clock display -/

/-- The table `DIGIT_SEGS[10][7]`: for each digit, which of the seven segments
are lit. -/
def DIGIT_SEGS : List (List Int) :=
  [[1, 1, 1, 1, 1, 1, 0],
   [0, 1, 1, 0, 0, 0, 0],
   [1, 1, 0, 1, 1, 0, 1],
   [1, 1, 1, 1, 0, 0, 1],
   [0, 1, 1, 0, 0, 1, 1],
   [1, 0, 1, 1, 0, 1, 1],
   [1, 0, 1, 1, 1, 1, 1],
   [1, 1, 1, 0, 0, 0, 0],
   [1, 1, 1, 1, 1, 1, 1],
   [1, 1, 1, 1, 0, 1, 1]]

/-- The function `drawDigit`, as the list of segment indices it draws for the
digit `d`: those `seg < 7` with `DIGIT_SEGS[d][seg]` non-zero.  `none` is the
undefined read of `DIGIT_SEGS[d]` with `d` outside `0..9`. -/
def drawDigit (d : Int) : Option (List Nat) :=
  if 0 ≤ d then
    match DIGIT_SEGS[d.toNat]? with
    | none => none
    | some row => some ((List.range 7).filter (fun seg => row.getD seg 0 ≠ 0))
  else none

/-- The function `drawMMSS`, as the four digits `m1, m2, s1, s2` it passes to
`drawDigit`, in drawing order.  C++ `/` and `%` on `int` truncate toward zero. -/
def drawMMSS (totalSeconds : Int) : Int × Int × Int × Int :=
  let mm := Int.tdiv totalSeconds 60
  let ss := Int.tmod totalSeconds 60
  (Int.tmod (Int.tdiv mm 10) 10, Int.tmod mm 10, Int.tdiv ss 10, Int.tmod ss 10)

/-! ## Runs of the loop -/

/-- A finite run of the loop: one pass per input, made while `running` holds. -/
def runFrames (rand : Nat → Nat) : List FrameInput → World → Option World
  | [], w => some w
  | inp :: rest, w =>
    if w.running = true then
      match frame rand inp w with
      | none => none
      | some w1 => runFrames rand rest w1
    else none

/-- The platform vectors the program can hold: the vector built by the creation
loop, and from any such vector the result of one advance loop (for any integer
step `dy`) or of one reshuffle, at any position `c` of the `rand` stream. -/
inductive PlatsReachable (rand : Nat → Nat) : List Rect → Prop where
  | created (c : Nat) : PlatsReachable rand (createPlats rand PLAT_COUNT c)
  | advanced (dy : Int) (c : Nat) {ps : List Rect} :
      PlatsReachable rand ps → PlatsReachable rand (advancePlats rand dy c ps).1
  | reshuffled (c : Nat) {ps : List Rect} :
      PlatsReachable rand ps → PlatsReachable rand (reshufflePlats rand c ps)

/-! ## Names used in the statements -/

/-- The world of a PLAYING update when the spike test is reached: platforms
advanced, held input read, physics integrated, walls applied. -/
def moved (rand : Nat → Nat) (dt : ℚ) (k : Keys) (w : World) : World :=
  walls (integrate dt (heldInput k (advance rand dt w)))

/-- What the landing scan writes when it lands on platform `pl` at index `i`. -/
def landOn (w : World) (pl : Rect) (i : Nat) : World :=
  { w with
    py := ((pl.y - player_h : Int) : ℚ)
    playerY := pl.y - player_h
    vy := 0
    onGround := true
    standingPlatform := (i : Int) }

/-- The riding-state invariant of a world: an attached player stands on a
platform of the vector, grounded, at rest, feet on its top edge. -/
def RidingInv (w : World) : Prop :=
  w.standingPlatform ≠ -1 →
    0 ≤ w.standingPlatform ∧ w.standingPlatform < 24 ∧ w.onGround = true ∧ w.vy = 0 ∧
      ∃ pl, w.plats[w.standingPlatform.toNat]? = some pl ∧ w.py + 22 = (pl.y : ℚ)

/-- The vertical range and the height of the platforms of a vector. -/
def PlatsOk (ps : List Rect) : Prop := ∀ p ∈ ps, -300 ≤ p.y ∧ p.y ≤ 300 ∧ p.h = 10

/-! ## Concrete inputs -/

/-- A stream of `std::rand()` results: every call returns 0. -/
def zeroRand : Nat → Nat := fun _ => 0

/-- No movement key held. -/
def noKeys : Keys := { left := false, a := false, right := false, d := false }

/-- A stream of `std::rand()` results that puts platform 0 of the first
reshuffle (calls 72, 73, 74) at `y = 220`, `w = 40`, `x = 120`, under the jump
arc of the centered player; every other call returns 0. -/
def landRand : Nat → Nat :=
  fun n => if n = 72 then 520 else if n = 73 then 10 else if n = 74 then 120 else 0

/-- A list of `n` frames without events or held keys, the clock advancing by `step`
milliseconds per frame from `t0`. -/
def idleFrames (t0 step : Nat) : Nat → List FrameInput
  | 0 => []
  | n + 1 => { events := [], now := t0 + step, keys := noKeys } :: idleFrames (t0 + step) step n

/-- A frame in which ENTER starts the game and SPACE jumps, then `n` idle
frames, 33 ms each. -/
def jumpFrames (n : Nat) : List FrameInput :=
  { events := [(5, Event.keydown Key.RETURN), (5, Event.keydown Key.SPACE)]
    now := 33
    keys := noKeys } :: idleFrames 33 33 n

/-- The state 22 frames into the run `jumpFrames`: the player has landed on
platform 0. -/
def landedWorld : World :=
  { playerX := 139
    playerY := 242
    px := 139
    py := 242
    vx := 0
    vy := 0
    onGround := true
    standingPlatform := 0
    prevPy := 1183777 / 5000
    plats := { x := 120, y := 264, w := 40, h := 10 } ::
      List.replicate 23 { x := 0, y := -256, w := 30, h := 10 }
    scrollSpeed := 41089 / 500
    tStart := 5
    state := GameState.PLAYING
    running := true
    prevTicks := 726
    randCalls := 144 }

/-- The state 34 frames into the run `jumpFrames`: the player still rides
platform 0, whose top has come down to the spike top (`y = 288`, feet at 288). -/
def rideLowWorld : World :=
  { playerX := 139
    playerY := 266
    px := 139
    py := 266
    vx := 0
    vy := 0
    onGround := true
    standingPlatform := 0
    prevPy := 264
    plats := { x := 120, y := 288, w := 40, h := 10 } ::
      List.replicate 23 { x := 0, y := -232, w := 30, h := 10 }
    scrollSpeed := 41683 / 500
    tStart := 5
    state := GameState.PLAYING
    running := true
    prevTicks := 1122
    randCalls := 144 }

/-- The start of the falling scenario: scroll speed 80, platform 0 at
`x = 100, y = 50, w = 40`, the player over it at `y = 0`, at rest, unattached. -/
def fallStart : World :=
  { playerX := 109
    playerY := 0
    px := 109
    py := 0
    vx := 0
    vy := 0
    onGround := false
    standingPlatform := -1
    prevPy := 0
    plats := { x := 100, y := 50, w := 40, h := 10 } ::
      List.replicate 23 { x := 0, y := -200, w := 30, h := 10 }
    scrollSpeed := 80
    tStart := 0
    state := GameState.PLAYING
    running := true
    prevTicks := 0
    randCalls := 144 }

/-- The falling scenario after 12 frames of 33 ms: the frame before the landing. -/
def fallWorld : World :=
  { playerX := 109
    playerY := 50
    px := 109
    py := 127413 / 2500
    vx := 0
    vy := 1188 / 5
    onGround := false
    standingPlatform := -1
    prevPy := 107811 / 2500
    plats := { x := 100, y := 74, w := 40, h := 10 } ::
      List.replicate 23 { x := 0, y := -176, w := 30, h := 10 }
    scrollSpeed := 20297 / 250
    tStart := 0
    state := GameState.PLAYING
    running := true
    prevTicks := 396
    randCalls := 144 }

/-- The falling scenario after 13 frames: landed on platform 0. -/
def fallLanded : World :=
  { playerX := 109
    playerY := 54
    px := 109
    py := 54
    vx := 0
    vy := 0
    onGround := true
    standingPlatform := 0
    prevPy := 127413 / 2500
    plats := { x := 100, y := 76, w := 40, h := 10 } ::
      List.replicate 23 { x := 0, y := -174, w := 30, h := 10 }
    scrollSpeed := 81287 / 1000
    tStart := 0
    state := GameState.PLAYING
    running := true
    prevTicks := 396
    randCalls := 144 }

/-- A PLAYING world with the player falling just above the spikes: feet at 287
(`py = 265`), `vy = 50`, unattached. -/
def spikeFallWorld : World :=
  { fallStart with playerY := 265, py := 265, vy := 50, prevPy := 264 }

/-- A PLAYING world with the player riding platform 0 high in the field:
platform 0 at `x = 100, y = 50, w = 40`, the player at `px = 109`, `py = 28`. -/
def rideWorld : World :=
  { fallStart with playerY := 28, py := 28, onGround := true, standingPlatform := 0, prevPy := 26 }

/-- A PLAYING world with the player at rest on the spike top: `py = 266`,
`vy = 0`, unattached. -/
def restWorld : World :=
  { fallStart with playerY := 266, py := 266, onGround := true, prevPy := 266 }

/-- A stream like `landRand` with platform 0 of the first reshuffle one pixel
lower, at `y = 221`: its top then passes through the odd heights. -/
def oddRand : Nat → Nat :=
  fun n => if n = 72 then 521 else if n = 73 then 10 else if n = 74 then 120 else 0

/-- The state 33 frames into the run `jumpFrames` under `oddRand`: the player
rides platform 0, whose top is at `y = 287`, one pixel above the spike top. -/
def rideOddWorld : World :=
  { playerX := 139
    playerY := 265
    px := 139
    py := 265
    vx := 0
    vy := 0
    onGround := true
    standingPlatform := 0
    prevPy := 263
    plats := { x := 120, y := 287, w := 40, h := 10 } ::
      List.replicate 23 { x := 0, y := -234, w := 30, h := 10 }
    scrollSpeed := 83267 / 1000
    tStart := 5
    state := GameState.PLAYING
    running := true
    prevTicks := 1089
    randCalls := 144 }

/-- The falling scenario in the frame before the landing, with two platforms
under the player: platform 1 at `x = 100, y = 74, w = 40` and platform 2 at
`x = 90, y = 72, w = 50`; platform 0 is far to the left. -/
def twoPlatWorld : World :=
  { fallWorld with
    plats := { x := 0, y := -176, w := 30, h := 10 } ::
      { x := 100, y := 74, w := 40, h := 10 } ::
      { x := 90, y := 72, w := 50, h := 10 } ::
      List.replicate 21 { x := 0, y := -176, w := 30, h := 10 } }

/-- A stream of `std::rand()` results: every call returns 120, so a recycled
platform is drawn at `y = -30`, `w = 45`, `x = 120`. -/
def rand120 : Nat → Nat := fun _ => 120

/-- The TITLE state of the run under `rand120`, in which all 24 platforms move
together in the player's column (`x = 120, w = 45`): the player at rest, the
platforms at height `y`, after `calls` draws, at clock reading `ticks`. -/
def titleWorldAt (scrollSpeed : ℚ) (y : Int) (ticks calls : Nat) : World :=
  { playerX := 139
    playerY := 266
    px := 139
    py := 266
    vx := 0
    vy := 0
    onGround := true
    standingPlatform := -1
    prevPy := 266
    plats := List.replicate 24 { x := 120, y := y, w := 45, h := 10 }
    scrollSpeed := scrollSpeed
    tStart := 0
    state := GameState.TITLE
    running := true
    prevTicks := ticks
    randCalls := calls }

/-- One idle TITLE frame of 33 ms of the run under `rand120`, on the parameters
`(scrollSpeed, y, calls)` of `titleWorldAt`: the ramp, and the advance of the
24 platforms, which are recycled together (72 draws) to `y = -30`. -/
def titleStep (p : ℚ × Int × Nat) : ℚ × Int × Nat :=
  if p.2.1 + castInt ((p.1 + 3 * (33 / 1000)) * (33 / 1000)) > 300 then
    (p.1 + 3 * (33 / 1000), -30, p.2.2 + 72)
  else
    (p.1 + 3 * (33 / 1000), p.2.1 + castInt ((p.1 + 3 * (33 / 1000)) * (33 / 1000)), p.2.2)

/-- The end of the long run, after 5304 idle TITLE frames: a frame in which
ENTER starts the game and SPACE jumps, and 19 idle frames, 33 ms each. -/
def fastRunTail : List FrameInput :=
  { events := [(175040, Event.keydown Key.RETURN), (175040, Event.keydown Key.SPACE)]
    now := 175065
    keys := noKeys } :: idleFrames 175065 33 19

/-- The state 5324 frames into the run under `rand120` (about three minutes on
the title screen, then a start and a jump): scroll speed about 607, the player
riding platform 0 at `x = 120, y = 285, w = 45`, feet on its top (`py = 263`). -/
def rideFastWorld : World :=
  { playerX := 139
    playerY := 263
    px := 139
    py := 263
    vx := 0
    vy := 0
    onGround := true
    standingPlatform := 0
    prevPy := 243
    plats := List.replicate 24 { x := 120, y := 285, w := 45, h := 10 }
    scrollSpeed := 151769 / 250
    tStart := 175040
    state := GameState.PLAYING
    running := true
    prevTicks := 175692
    randCalls := 12312 }

/-! ## Platform lemmas -/

theorem irand_bounds (r : Nat) (lo hi : Int) (h : lo < hi) :
    lo ≤ irand r lo hi ∧ irand r lo hi < hi := by
  unfold irand
  have hm : max 1 (hi - lo) = hi - lo := max_eq_right (by omega)
  rw [hm]
  have h1 : 0 ≤ (r : Int) % (hi - lo) := Int.emod_nonneg _ (by omega)
  have h2 : (r : Int) % (hi - lo) < hi - lo := Int.emod_lt_of_pos _ (by omega)
  constructor <;> omega

/-- The geometry of a platform the random draws produce: `w` from
`irand(30, 65)`, then `x` from `irand(0, WIDTH - w)`. -/
theorem drawn_geometry (r1 r2 : Nat) :
    30 ≤ irand r1 30 65 ∧ irand r1 30 65 < 65 ∧ 0 ≤ irand r2 0 (WIDTH - irand r1 30 65) ∧
      irand r2 0 (WIDTH - irand r1 30 65) < WIDTH - irand r1 30 65 := by
  have hw := irand_bounds r1 30 65 (by decide)
  have hx := irand_bounds r2 0 (WIDTH - irand r1 30 65) (by unfold WIDTH; omega)
  exact ⟨hw.1, hw.2, hx.1, hx.2⟩

theorem newPlat_geometry (rand : Nat → Nat) (c : Nat) :
    30 ≤ (newPlat rand c).w ∧ (newPlat rand c).w ≤ 65 ∧ 0 ≤ (newPlat rand c).x ∧
      (newPlat rand c).x + (newPlat rand c).w ≤ 300 := by
  have h := drawn_geometry (rand c) (rand (c + 1))
  simp only [newPlat]
  unfold WIDTH at h ⊢
  omega

theorem reshuffleOne_geometry (rand : Nat → Nat) (c : Nat) (p : Rect) :
    30 ≤ (reshuffleOne rand c p).w ∧ (reshuffleOne rand c p).w < 65 ∧
      0 ≤ (reshuffleOne rand c p).x ∧
      (reshuffleOne rand c p).x < 300 - (reshuffleOne rand c p).w ∧
      -300 ≤ (reshuffleOne rand c p).y ∧ (reshuffleOne rand c p).y < 300 := by
  have h := drawn_geometry (rand (c + 1)) (rand (c + 2))
  have hy := irand_bounds (rand c) (-HEIGHT) HEIGHT (by decide)
  simp only [reshuffleOne]
  unfold WIDTH at h ⊢
  unfold HEIGHT at hy ⊢
  omega

theorem advanceOne_geometry (rand : Nat → Nat) (dy : Int) (c : Nat) (p : Rect)
    (h : 30 ≤ p.w ∧ p.w ≤ 65 ∧ 0 ≤ p.x ∧ p.x + p.w ≤ 300) :
    30 ≤ (advanceOne rand dy c p).1.w ∧ (advanceOne rand dy c p).1.w ≤ 65 ∧
      0 ≤ (advanceOne rand dy c p).1.x ∧
      (advanceOne rand dy c p).1.x + (advanceOne rand dy c p).1.w ≤ 300 := by
  by_cases hy : p.y + dy > HEIGHT
  · have hd := drawn_geometry (rand (c + 1)) (rand (c + 2))
    simp only [advanceOne, hy, if_true]
    unfold WIDTH at hd ⊢
    omega
  · simp only [advanceOne, hy, if_false]
    exact h

theorem createPlats_geometry (rand : Nat → Nat) (n c : Nat) :
    ∀ p ∈ createPlats rand n c, 30 ≤ p.w ∧ p.w ≤ 65 ∧ 0 ≤ p.x ∧ p.x + p.w ≤ 300 := by
  induction n generalizing c with
  | zero => intro p hp; simp [createPlats] at hp
  | succ n ih =>
    intro p hp
    simp only [createPlats, List.mem_cons] at hp
    rcases hp with rfl | hp
    · exact newPlat_geometry rand c
    · exact ih (c + 3) p hp

theorem reshufflePlats_geometry (rand : Nat → Nat) (c : Nat) (ps : List Rect) :
    ∀ p ∈ reshufflePlats rand c ps, 30 ≤ p.w ∧ p.w < 65 ∧ 0 ≤ p.x ∧ p.x < 300 - p.w ∧
      -300 ≤ p.y ∧ p.y < 300 := by
  induction ps generalizing c with
  | nil => intro p hp; simp [reshufflePlats] at hp
  | cons q ps ih =>
    intro p hp
    simp only [reshufflePlats, List.mem_cons] at hp
    rcases hp with rfl | hp
    · exact reshuffleOne_geometry rand c q
    · exact ih (c + 3) p hp

theorem advancePlats_geometry (rand : Nat → Nat) (dy : Int) (c : Nat) (ps : List Rect)
    (h : ∀ p ∈ ps, 30 ≤ p.w ∧ p.w ≤ 65 ∧ 0 ≤ p.x ∧ p.x + p.w ≤ 300) :
    ∀ p ∈ (advancePlats rand dy c ps).1,
      30 ≤ p.w ∧ p.w ≤ 65 ∧ 0 ≤ p.x ∧ p.x + p.w ≤ 300 := by
  induction ps generalizing c with
  | nil => intro p hp; simp [advancePlats] at hp
  | cons q ps ih =>
    intro p hp
    simp only [advancePlats, List.mem_cons] at hp
    rcases hp with rfl | hp
    · exact advanceOne_geometry rand dy c q (h q (List.mem_cons_self _ _))
    · exact ih _ (fun p1 hp1 => h p1 (List.mem_cons_of_mem _ hp1)) p hp

theorem createPlats_length (rand : Nat → Nat) (n c : Nat) :
    (createPlats rand n c).length = n := by
  induction n generalizing c with
  | zero => rfl
  | succ n ih => simp [createPlats, ih]

theorem reshufflePlats_length (rand : Nat → Nat) (c : Nat) (ps : List Rect) :
    (reshufflePlats rand c ps).length = ps.length := by
  induction ps generalizing c with
  | nil => rfl
  | cons q ps ih => simp [reshufflePlats, ih]

theorem advancePlats_length (rand : Nat → Nat) (dy : Int) (c : Nat) (ps : List Rect) :
    (advancePlats rand dy c ps).1.length = ps.length := by
  induction ps generalizing c with
  | nil => rfl
  | cons q ps ih => simp [advancePlats, ih]

/-! ## Frame lemmas: which fields each block writes -/

theorem castInt_intCast (n : Int) : castInt (n : ℚ) = n := by
  unfold castInt
  split <;> simp

theorem landingScan_state (w : World) (a b : ℚ) (ps : List Rect) (i : Nat) :
    (landingScan w a b i ps).state = w.state := by
  induction ps generalizing i with
  | nil => rfl
  | cons pl rest ih =>
    unfold landingScan
    split
    · rfl
    · exact ih (i + 1)

theorem landing_state (w : World) : (landing w).state = w.state := by
  unfold landing
  split
  · exact landingScan_state w _ _ _ 0
  · rfl

/-- The riding block when the player is not attached. -/
theorem riding_unattached (w : World) (h : w.standingPlatform = -1) : riding w = some w := by
  simp [riding, h]

/-- The riding block when the player is attached to a platform of the vector:
the player is put flush on top, and detached when not over it.  The proximity
test `nearTop` always passes after the snap. -/
theorem riding_attached (w : World) (pl : Rect) (h1 : w.standingPlatform ≠ -1)
    (h0 : 0 ≤ w.standingPlatform) (hpl : w.plats[w.standingPlatform.toNat]? = some pl) :
    riding w = some
      (if overHoriz w pl then
        { w with
          py := ((pl.y - player_h : Int) : ℚ)
          playerY := pl.y - player_h
          vy := 0
          onGround := true }
      else
        { w with
          py := ((pl.y - player_h : Int) : ℚ)
          playerY := pl.y - player_h
          vy := 0
          onGround := false
          standingPlatform := -1 }) := by
  simp only [riding, h1, h0, hpl, castInt_intCast, ne_eq, not_false_eq_true, if_true, overHoriz]
  simp only [sub_add_cancel, sub_self, abs_zero, Nat.ofNat_nonneg, decide_True, Bool.not_true,
    Bool.or_false, Bool.not_eq_true', Bool.and_eq_true, decide_eq_true_eq]
  by_cases hx : pl.x < w.playerX + player_w ∧ w.playerX < pl.x + pl.w
  · simp [hx.1, hx.2]
  · have hb : (decide (w.playerX + player_w > pl.x) && decide (w.playerX < pl.x + pl.w)) = false := by
      rw [Bool.eq_false_iff]
      simpa using hx
    rw [if_neg hx]
    simp [hb]

theorem riding_state {w w1 : World} (h : riding w = some w1) : w1.state = w.state := by
  by_cases h1 : w.standingPlatform = -1
  · rw [riding_unattached w h1] at h
    simp only [Option.some.injEq] at h
    rw [← h]
  · by_cases h0 : 0 ≤ w.standingPlatform
    · cases hpl : w.plats[w.standingPlatform.toNat]? with
      | none => simp [riding, h1, h0, hpl] at h
      | some pl =>
        rw [riding_attached w pl h1 h0 hpl] at h
        simp only [Option.some.injEq] at h
        rw [← h]
        split <;> rfl
    · simp [riding, h1, h0] at h

theorem groundClamp_state (w : World) : (groundClamp w).state = w.state := by
  unfold groundClamp
  split <;> rfl

/-- The crossing test of the PLAYING branch, in terms of the state before the update. -/
theorem spikeCrossed_integrated (rand : Nat → Nat) (dt : ℚ) (k : Keys) (w : World) :
    spikeCrossed (walls (integrate dt (heldInput k (advance rand dt w)))) = true ↔
      ((if w.standingPlatform = -1 then w.vy + 600 * dt else w.vy) > 0 ∧ w.py + 22 < 288 ∧
        288 ≤ w.py + (if w.standingPlatform = -1 then w.vy + 600 * dt else w.vy) * dt + 22) := by
  simp [spikeCrossed, walls, integrate, heldInput, advance, player_h, spikeTop, HEIGHT, SPIKE_H,
    gravity, and_assoc]

/-- The landing scan either finds no matching platform and changes nothing, or
lands on the first matching platform. -/
theorem landingScan_spec (w : World) (a b : ℚ) (ps : List Rect) (i : Nat) :
    (landingScan w a b i ps = w ∧
        ∀ (j : Nat) (pl : Rect), ps[j]? = some pl →
          (overHoriz w pl && crossedTop w a b pl) = false) ∨
      ∃ (j : Nat) (pl : Rect), ps[j]? = some pl ∧ (overHoriz w pl && crossedTop w a b pl) = true ∧
        (∀ (j1 : Nat) (pl1 : Rect), j1 < j → ps[j1]? = some pl1 →
          (overHoriz w pl1 && crossedTop w a b pl1) = false) ∧
        landingScan w a b i ps = landOn w pl (i + j) := by
  induction ps generalizing i with
  | nil => left; exact ⟨rfl, by simp⟩
  | cons p rest ih =>
    cases hm : (overHoriz w p && crossedTop w a b p) with
    | true =>
      right
      refine ⟨0, p, by simp, hm, ?_, ?_⟩
      · intro j1 pl1 hj; exact absurd hj (Nat.not_lt_zero _)
      · simp only [landingScan, hm, if_true, landOn, castInt_intCast, Nat.add_zero]
    | false =>
      have hstep : landingScan w a b i (p :: rest) = landingScan w a b (i + 1) rest := by
        simp only [landingScan, hm, Bool.false_eq_true, if_false]
      rcases ih (i + 1) with ⟨he, hall⟩ | ⟨j, pl, hj, hmj, hfirst, he⟩
      · left
        refine ⟨hstep.trans he, ?_⟩
        intro j pl hj
        cases j with
        | zero =>
          simp only [List.getElem?_cons_zero, Option.some.injEq] at hj
          subst hj; exact hm
        | succ j => exact hall j pl (by simpa using hj)
      · right
        refine ⟨j + 1, pl, by simpa using hj, hmj, ?_, ?_⟩
        · intro j1 pl1 hlt h1
          cases j1 with
          | zero =>
            simp only [List.getElem?_cons_zero, Option.some.injEq] at h1
            subst h1; exact hm
          | succ j1 => exact hfirst j1 pl1 (Nat.lt_of_succ_lt_succ hlt) (by simpa using h1)
        · rw [hstep, he]
          have : i + 1 + j = i + (j + 1) := by omega
          rw [this]

/-- A player that is not moving down does not land. -/
theorem landingScan_not_falling (w : World) (a b : ℚ) (ps : List Rect) (i : Nat)
    (h : w.vy ≤ 0) : landingScan w a b i ps = w := by
  induction ps generalizing i with
  | nil => rfl
  | cons p rest ih =>
    have hc : crossedTop w a b p = false := by
      simp [crossedTop, not_lt.mpr h]
    simp only [landingScan, hc, Bool.and_false, Bool.false_eq_true, if_false]
    exact ih (i + 1)

/-! ## The PLAYING update, case by case -/

theorem moved_vy (rand : Nat → Nat) (dt : ℚ) (k : Keys) (w : World) :
    (moved rand dt k w).vy = if w.standingPlatform = -1 then w.vy + 600 * dt else w.vy := by
  simp [moved, walls, integrate, heldInput, advance, gravity]

theorem moved_py (rand : Nat → Nat) (dt : ℚ) (k : Keys) (w : World) :
    (moved rand dt k w).py =
      w.py + (if w.standingPlatform = -1 then w.vy + 600 * dt else w.vy) * dt := by
  simp [moved, walls, integrate, heldInput, advance, gravity]

theorem moved_prevPy (rand : Nat → Nat) (dt : ℚ) (k : Keys) (w : World) :
    (moved rand dt k w).prevPy = w.py := rfl

theorem moved_standingPlatform (rand : Nat → Nat) (dt : ℚ) (k : Keys) (w : World) :
    (moved rand dt k w).standingPlatform = w.standingPlatform := rfl

theorem moved_plats (rand : Nat → Nat) (dt : ℚ) (k : Keys) (w : World) :
    (moved rand dt k w).plats = (advance rand dt w).plats := rfl

theorem moved_state (rand : Nat → Nat) (dt : ℚ) (k : Keys) (w : World) :
    (moved rand dt k w).state = w.state := rfl

/-- A PLAYING update is the PLAYING branch on the advanced world. -/
theorem update_playing (rand : Nat → Nat) (dt : ℚ) (k : Keys) (w : World)
    (hs : w.state = GameState.PLAYING) :
    update rand dt k w =
      if spikeCrossed (moved rand dt k w) then
        some { resetRun rand (moved rand dt k w) with state := GameState.TITLE }
      else
        (riding (writeBack (groundClamp { moved rand dt k w with onGround := false }))).map
          landing := by
  have hadv : (advance rand dt w).state = GameState.PLAYING := hs
  simp only [update, hadv, if_true, playing, moved]

/-- Death: the spike test fires. -/
theorem update_death (rand : Nat → Nat) (dt : ℚ) (k : Keys) (w : World)
    (hs : w.state = GameState.PLAYING) (hc : spikeCrossed (moved rand dt k w) = true) :
    update rand dt k w =
      some { resetRun rand (moved rand dt k w) with state := GameState.TITLE } := by
  rw [update_playing rand dt k w hs, if_pos hc]

/-- Ground clamp: no death, feet at or below the spike top. -/
theorem update_clamped (rand : Nat → Nat) (dt : ℚ) (k : Keys) (w : World)
    (hs : w.state = GameState.PLAYING) (hc : spikeCrossed (moved rand dt k w) = false)
    (hg : (288 : ℚ) ≤ (moved rand dt k w).py + 22) :
    update rand dt k w =
      some (writeBack
        { moved rand dt k w with
          py := 266
          vy := 0
          onGround := true
          standingPlatform := -1 }) := by
  rw [update_playing rand dt k w hs, hc]
  have hg1 : (moved rand dt k w).py + (player_h : ℚ) ≥ (spikeTop : ℚ) := by
    simpa [player_h, spikeTop, HEIGHT, SPIKE_H] using hg
  have h1 : groundClamp { moved rand dt k w with onGround := false } =
      { moved rand dt k w with py := 266, vy := 0, onGround := true, standingPlatform := -1 } := by
    simp only [groundClamp, hg1, if_true]
    norm_num [spikeTop, HEIGHT, SPIKE_H, player_h]
  rw [h1]
  simp only [Bool.false_eq_true, if_false]
  rw [riding_unattached _ rfl]
  simp [landing, writeBack]

/-- Airborne: no death, no clamp, not attached; the landing scan runs. -/
theorem update_airborne (rand : Nat → Nat) (dt : ℚ) (k : Keys) (w : World)
    (hs : w.state = GameState.PLAYING) (hc : spikeCrossed (moved rand dt k w) = false)
    (hg : (moved rand dt k w).py + 22 < (288 : ℚ)) (hsp : w.standingPlatform = -1) :
    update rand dt k w =
      some (landingScan (writeBack { moved rand dt k w with onGround := false })
        ((moved rand dt k w).prevPy + 22) ((moved rand dt k w).py + 22) 0
        (moved rand dt k w).plats) := by
  rw [update_playing rand dt k w hs, hc]
  have hg1 : ¬ ((moved rand dt k w).py + (player_h : ℚ) ≥ (spikeTop : ℚ)) := by
    simpa [player_h, spikeTop, HEIGHT, SPIKE_H] using hg
  have h1 : groundClamp { moved rand dt k w with onGround := false } =
      { moved rand dt k w with onGround := false } := by
    simp only [groundClamp, hg1, if_false]
  rw [h1]
  simp only [Bool.false_eq_true, if_false]
  rw [riding_unattached _ (by exact hsp)]
  simp only [Option.map_some']
  have h2 : (moved rand dt k w).standingPlatform = -1 := hsp
  simp [landing, h2, writeBack, player_h]

/-- Riding: no death, no clamp, attached to a platform of the vector. -/
theorem update_riding (rand : Nat → Nat) (dt : ℚ) (k : Keys) (w : World) (pl : Rect)
    (hs : w.state = GameState.PLAYING) (hc : spikeCrossed (moved rand dt k w) = false)
    (hg : (moved rand dt k w).py + 22 < (288 : ℚ)) (hsp : w.standingPlatform ≠ -1)
    (h0 : 0 ≤ w.standingPlatform)
    (hpl : (advance rand dt w).plats[w.standingPlatform.toNat]? = some pl) :
    update rand dt k w =
      some
        (if overHoriz (writeBack (moved rand dt k w)) pl then
          { writeBack (moved rand dt k w) with
            py := ((pl.y - player_h : Int) : ℚ)
            playerY := pl.y - player_h
            vy := 0
            onGround := true }
        else
          { writeBack (moved rand dt k w) with
            py := ((pl.y - player_h : Int) : ℚ)
            playerY := pl.y - player_h
            vy := 0
            onGround := false
            standingPlatform := -1 }) := by
  rw [update_playing rand dt k w hs, hc]
  have hg1 : ¬ ((moved rand dt k w).py + (player_h : ℚ) ≥ (spikeTop : ℚ)) := by
    simpa [player_h, spikeTop, HEIGHT, SPIKE_H] using hg
  have h1 : groundClamp { moved rand dt k w with onGround := false } =
      { moved rand dt k w with onGround := false } := by
    simp only [groundClamp, hg1, if_false]
  rw [h1]
  simp only [Bool.false_eq_true, if_false]
  rw [riding_attached _ pl (by exact hsp) (by exact h0) (by exact hpl)]
  simp only [Option.map_some']
  by_cases ho : overHoriz (writeBack (moved rand dt k w)) pl = true
  · have ho1 : overHoriz (writeBack { moved rand dt k w with onGround := false }) pl = true := ho
    rw [if_pos ho, if_pos ho1]
    have hsp1 : ¬ (w.standingPlatform = -1) := hsp
    simp [landing, writeBack, moved_standingPlatform, hsp1]
  · have ho1 : ¬ overHoriz (writeBack { moved rand dt k w with onGround := false }) pl = true := ho
    rw [if_neg ho, if_neg ho1]
    simp only [landing, writeBack, true_and, if_true]
    rw [landingScan_not_falling _ _ _ _ _ (le_refl _)]

/-- Riding with the index outside the vector: the source reads past the vector. -/
theorem update_riding_undefined (rand : Nat → Nat) (dt : ℚ) (k : Keys) (w : World)
    (hs : w.state = GameState.PLAYING) (hc : spikeCrossed (moved rand dt k w) = false)
    (hg : (moved rand dt k w).py + 22 < (288 : ℚ)) (hsp : w.standingPlatform ≠ -1)
    (hbad : w.standingPlatform < 0 ∨
      (advance rand dt w).plats[w.standingPlatform.toNat]? = none) :
    update rand dt k w = none := by
  rw [update_playing rand dt k w hs, hc]
  have hg1 : ¬ ((moved rand dt k w).py + (player_h : ℚ) ≥ (spikeTop : ℚ)) := by
    simpa [player_h, spikeTop, HEIGHT, SPIKE_H] using hg
  have h1 : groundClamp { moved rand dt k w with onGround := false } =
      { moved rand dt k w with onGround := false } := by
    simp only [groundClamp, hg1, if_false]
  rw [h1]
  simp only [Bool.false_eq_true, if_false]
  have hsp1 : ¬ (w.standingPlatform = -1) := hsp
  rcases hbad with hneg | hnone
  · simp [riding, writeBack, moved_standingPlatform, hsp1, not_le.mpr hneg]
  · simp [riding, writeBack, moved_standingPlatform, moved_plats, hsp1, hnone]

/-- Every PLAYING update that is defined and does not take the death transition
ends in one of five ways: clamped to the hazard floor, riding on, detached from
the platform, airborne without landing, or landed on the first matching
platform. -/
theorem update_alive_cases (rand : Nat → Nat) (dt : ℚ) (k : Keys) (w w1 : World)
    (hs : w.state = GameState.PLAYING) (hc : spikeCrossed (moved rand dt k w) = false)
    (hu : update rand dt k w = some w1) :
    ((288 : ℚ) ≤ (moved rand dt k w).py + 22 ∧
      w1 = writeBack { moved rand dt k w with
        py := 266, vy := 0, onGround := true, standingPlatform := -1 }) ∨
    ((moved rand dt k w).py + 22 < (288 : ℚ) ∧ w.standingPlatform ≠ -1 ∧
      0 ≤ w.standingPlatform ∧
      ∃ pl, (advance rand dt w).plats[w.standingPlatform.toNat]? = some pl ∧
        overHoriz (writeBack (moved rand dt k w)) pl = true ∧
        w1 = { writeBack (moved rand dt k w) with
          py := ((pl.y - player_h : Int) : ℚ)
          playerY := pl.y - player_h
          vy := 0
          onGround := true }) ∨
    ((moved rand dt k w).py + 22 < (288 : ℚ) ∧ w.standingPlatform ≠ -1 ∧
      0 ≤ w.standingPlatform ∧
      ∃ pl, (advance rand dt w).plats[w.standingPlatform.toNat]? = some pl ∧
        overHoriz (writeBack (moved rand dt k w)) pl = false ∧
        w1 = { writeBack (moved rand dt k w) with
          py := ((pl.y - player_h : Int) : ℚ)
          playerY := pl.y - player_h
          vy := 0
          onGround := false
          standingPlatform := -1 }) ∨
    ((moved rand dt k w).py + 22 < (288 : ℚ) ∧ w.standingPlatform = -1 ∧
      w1 = writeBack { moved rand dt k w with onGround := false }) ∨
    ((moved rand dt k w).py + 22 < (288 : ℚ) ∧ w.standingPlatform = -1 ∧
      ∃ (j : Nat) (pl : Rect), (advance rand dt w).plats[j]? = some pl ∧
        (overHoriz (writeBack { moved rand dt k w with onGround := false }) pl &&
          crossedTop (writeBack { moved rand dt k w with onGround := false })
            ((moved rand dt k w).prevPy + 22) ((moved rand dt k w).py + 22) pl) = true ∧
        w1 = landOn (writeBack { moved rand dt k w with onGround := false }) pl j) := by
  by_cases hg : (288 : ℚ) ≤ (moved rand dt k w).py + 22
  · rw [update_clamped rand dt k w hs hc hg] at hu
    simp only [Option.some.injEq] at hu
    exact Or.inl ⟨hg, hu.symm⟩
  · have hg1 : (moved rand dt k w).py + 22 < (288 : ℚ) := not_le.mp hg
    by_cases hsp : w.standingPlatform = -1
    · rw [update_airborne rand dt k w hs hc hg1 hsp] at hu
      simp only [Option.some.injEq] at hu
      rcases landingScan_spec (writeBack { moved rand dt k w with onGround := false })
          ((moved rand dt k w).prevPy + 22) ((moved rand dt k w).py + 22)
          (moved rand dt k w).plats 0 with ⟨he, _⟩ | ⟨j, pl, hj, hm, _, he⟩
      · rw [he] at hu
        exact Or.inr (Or.inr (Or.inr (Or.inl ⟨hg1, hsp, hu.symm⟩)))
      · rw [he, Nat.zero_add] at hu
        exact Or.inr (Or.inr (Or.inr (Or.inr ⟨hg1, hsp, j, pl, hj, hm, hu.symm⟩)))
    · by_cases hv : 0 ≤ w.standingPlatform ∧
          ∃ pl, (advance rand dt w).plats[w.standingPlatform.toNat]? = some pl
      · obtain ⟨h0, pl, hpl⟩ := hv
        rw [update_riding rand dt k w pl hs hc hg1 hsp h0 hpl] at hu
        simp only [Option.some.injEq] at hu
        cases ho : overHoriz (writeBack (moved rand dt k w)) pl with
        | true =>
          rw [ho, if_pos rfl] at hu
          exact Or.inr (Or.inl ⟨hg1, hsp, h0, pl, hpl, ho, hu.symm⟩)
        | false =>
          rw [ho, if_neg (by decide)] at hu
          exact Or.inr (Or.inr (Or.inl ⟨hg1, hsp, h0, pl, hpl, ho, hu.symm⟩))
      · exfalso
        have hbad : w.standingPlatform < 0 ∨
            (advance rand dt w).plats[w.standingPlatform.toNat]? = none := by
          by_cases h0 : 0 ≤ w.standingPlatform
          · right
            cases hpl : (advance rand dt w).plats[w.standingPlatform.toNat]? with
            | none => rfl
            | some pl => exact absurd ⟨h0, pl, hpl⟩ hv
          · left; exact not_le.mp h0
        rw [update_riding_undefined rand dt k w hs hc hg1 hsp hbad] at hu
        exact absurd hu (by simp)

/-- The fields a PLAYING update without death leaves as the integration and the
advance set them: state, `px`, `vx`, `player.x`, platforms, scroll speed. -/
theorem update_alive_fields (rand : Nat → Nat) (dt : ℚ) (k : Keys) (w w1 : World)
    (hs : w.state = GameState.PLAYING) (hc : spikeCrossed (moved rand dt k w) = false)
    (hu : update rand dt k w = some w1) :
    w1.state = GameState.PLAYING ∧ w1.px = (moved rand dt k w).px ∧
      w1.vx = (moved rand dt k w).vx ∧ w1.playerX = castInt (moved rand dt k w).px ∧
      w1.plats = (advance rand dt w).plats ∧
      w1.scrollSpeed = (advance rand dt w).scrollSpeed := by
  rcases update_alive_cases rand dt k w w1 hs hc hu with
    ⟨_, rfl⟩ | ⟨_, _, _, pl, _, _, rfl⟩ | ⟨_, _, _, pl, _, _, rfl⟩ | ⟨_, _, rfl⟩ |
    ⟨_, _, j, pl, _, _, rfl⟩
  all_goals exact ⟨hs, rfl, rfl, rfl, rfl, rfl⟩

/-- A PLAYING update that ends in PLAYING did not take the death transition. -/
theorem alive_of_playing (rand : Nat → Nat) (dt : ℚ) (k : Keys) (w w1 : World)
    (hs : w.state = GameState.PLAYING) (hu : update rand dt k w = some w1)
    (h1 : w1.state = GameState.PLAYING) : spikeCrossed (moved rand dt k w) = false := by
  cases hc : spikeCrossed (moved rand dt k w) with
  | false => rfl
  | true =>
    rw [update_death rand dt k w hs hc] at hu
    simp only [Option.some.injEq] at hu
    rw [← hu] at h1
    have h2 : GameState.TITLE = GameState.PLAYING := h1
    exact absurd h2 (by decide)

/-! ## The riding invariant -/

theorem resetRun_plats_length (rand : Nat → Nat) (w : World) :
    (resetRun rand w).plats.length = w.plats.length := by
  show (reshufflePlats rand _ w.plats).length = _
  rw [reshufflePlats_length]

theorem advance_plats_length (rand : Nat → Nat) (dt : ℚ) (w : World) :
    (advance rand dt w).plats.length = w.plats.length := by
  show (advancePlats rand _ _ w.plats).1.length = _
  rw [advancePlats_length]

/-- An event keeps the vector's length and the riding invariant. -/
theorem handleEvent_inv (rand : Nat → Nat) (ticks : Nat) (w : World) (e : Event)
    (h : w.plats.length = 24 ∧ RidingInv w) :
    (handleEvent rand ticks w e).plats.length = 24 ∧ RidingInv (handleEvent rand ticks w e) := by
  have hreset : ∀ w0 : World, w0.plats.length = 24 →
      ({ resetRun rand w0 with state := GameState.TITLE } : World).plats.length = 24 ∧
        RidingInv { resetRun rand w0 with state := GameState.TITLE } := by
    intro w0 h0
    refine ⟨?_, fun hne => absurd rfl hne⟩
    show (resetRun rand w0).plats.length = 24
    rw [resetRun_plats_length, h0]
  cases e with
  | quit => exact h
  | other => exact h
  | keydown sym =>
    simp only [handleEvent]
    split_ifs
    all_goals first
      | exact h
      | exact hreset _ h.1
      | exact ⟨h.1, fun hne => absurd rfl hne⟩

/-- The events of a frame keep the vector's length and the riding invariant. -/
theorem events_inv (rand : Nat → Nat) (es : List (Nat × Event)) (w : World)
    (h : w.plats.length = 24 ∧ RidingInv w) :
    (es.foldl (fun acc e => handleEvent rand e.1 acc e.2) w).plats.length = 24 ∧
      RidingInv (es.foldl (fun acc e => handleEvent rand e.1 acc e.2) w) := by
  induction es generalizing w with
  | nil => exact h
  | cons e es ih => exact ih _ (handleEvent_inv rand e.1 w e.2 h)

/-- An update from a world whose riding index is in range ends in a world that
satisfies the riding invariant. -/
theorem update_inv (rand : Nat → Nat) (dt : ℚ) (k : Keys) (w w1 : World)
    (hlen : w.plats.length = 24)
    (hidx : w.standingPlatform ≠ -1 → 0 ≤ w.standingPlatform ∧ w.standingPlatform < 24)
    (hu : update rand dt k w = some w1) :
    w1.plats.length = 24 ∧ RidingInv w1 := by
  have hlen1 : (advance rand dt w).plats.length = 24 := by rw [advance_plats_length, hlen]
  cases hst : w.state with
  | TITLE =>
    have hadv : ¬ ((advance rand dt w).state = GameState.PLAYING) := by
      show ¬ (w.state = GameState.PLAYING)
      rw [hst]; decide
    simp only [update, hadv, if_false, Option.some.injEq] at hu
    subst hu
    exact ⟨hlen1, fun hne => absurd rfl hne⟩
  | PLAYING =>
    cases hc : spikeCrossed (moved rand dt k w) with
    | true =>
      rw [update_death rand dt k w hst hc] at hu
      simp only [Option.some.injEq] at hu
      subst hu
      refine ⟨?_, fun hne => absurd rfl hne⟩
      show (resetRun rand (moved rand dt k w)).plats.length = 24
      rw [resetRun_plats_length]
      exact hlen1
    | false =>
      by_cases hg : (288 : ℚ) ≤ (moved rand dt k w).py + 22
      · rw [update_clamped rand dt k w hst hc hg] at hu
        simp only [Option.some.injEq] at hu
        subst hu
        exact ⟨hlen1, fun hne => absurd rfl hne⟩
      · have hg1 : (moved rand dt k w).py + 22 < (288 : ℚ) := not_le.mp hg
        by_cases hsp : w.standingPlatform = -1
        · rw [update_airborne rand dt k w hst hc hg1 hsp] at hu
          simp only [Option.some.injEq] at hu
          rcases landingScan_spec (writeBack { moved rand dt k w with onGround := false })
              ((moved rand dt k w).prevPy + 22) ((moved rand dt k w).py + 22)
              (moved rand dt k w).plats 0 with ⟨he, _⟩ | ⟨j, pl, hj, _, _, he⟩
          · rw [he] at hu
            subst hu
            exact ⟨hlen1, fun hne => absurd hsp hne⟩
          · rw [he] at hu
            subst hu
            refine ⟨hlen1, fun _ => ?_⟩
            have hjlt : j < 24 := by
              have := (List.getElem?_eq_some.mp hj).1
              rw [moved_plats, hlen1] at this
              exact this
            refine ⟨?_, ?_, rfl, rfl, pl, ?_, ?_⟩
            · simp [landOn]
            · simp only [landOn, Nat.zero_add]; omega
            · simpa [landOn, writeBack] using hj
            · simp [landOn, player_h]
        · obtain ⟨h0, hlt⟩ := hidx hsp
          have hnat : w.standingPlatform.toNat < (advance rand dt w).plats.length := by
            rw [hlen1]; omega
          have hpl : (advance rand dt w).plats[w.standingPlatform.toNat]? =
              some ((advance rand dt w).plats[w.standingPlatform.toNat]) :=
            List.getElem?_eq_getElem hnat
          rw [update_riding rand dt k w _ hst hc hg1 hsp h0 hpl] at hu
          simp only [Option.some.injEq] at hu
          subst hu
          split
          · refine ⟨hlen1, fun _ => ⟨h0, hlt, rfl, rfl, _, hpl, ?_⟩⟩
            simp [player_h]
          · exact ⟨hlen1, fun hne => absurd rfl hne⟩

/-- A frame keeps the vector's length and the riding invariant. -/
theorem frame_inv (rand : Nat → Nat) (inp : FrameInput) (w w1 : World)
    (h : w.plats.length = 24 ∧ RidingInv w) (hf : frame rand inp w = some w1) :
    w1.plats.length = 24 ∧ RidingInv w1 := by
  obtain ⟨hlen, hinv⟩ := events_inv rand inp.events w h
  unfold frame at hf
  generalize inp.events.foldl (fun acc e => handleEvent rand e.1 acc e.2) w = we at hlen hinv hf
  have hidx : ({ we with prevTicks := inp.now } : World).standingPlatform ≠ -1 →
      0 ≤ ({ we with prevTicks := inp.now } : World).standingPlatform ∧
        ({ we with prevTicks := inp.now } : World).standingPlatform < 24 := by
    intro hne
    have := hinv hne
    exact ⟨this.1, this.2.1⟩
  exact update_inv rand (frameDt we.prevTicks inp.now) inp.keys
    { we with prevTicks := inp.now } w1 hlen hidx hf

/-- Every state of the loop has 24 platforms and satisfies the riding invariant. -/
theorem reachable_inv (rand : Nat → Nat) (w : World) (h : Reachable rand w) :
    w.plats.length = 24 ∧ RidingInv w := by
  induction h with
  | init t0 =>
    refine ⟨?_, fun hne => absurd rfl hne⟩
    rw [initWorld, resetRun_plats_length]
    exact createPlats_length rand PLAT_COUNT 0
  | step inp _ _ hf ih => exact frame_inv rand inp _ _ ih hf

/-- An update from a world whose riding index is in range is defined: it never
reads past the vector. -/
theorem update_defined (rand : Nat → Nat) (dt : ℚ) (k : Keys) (w : World)
    (hlen : w.plats.length = 24)
    (hidx : w.standingPlatform ≠ -1 → 0 ≤ w.standingPlatform ∧ w.standingPlatform < 24) :
    ∃ w1, update rand dt k w = some w1 := by
  have hlen1 : (advance rand dt w).plats.length = 24 := by rw [advance_plats_length, hlen]
  cases hst : w.state with
  | TITLE =>
    have hadv : ¬ ((advance rand dt w).state = GameState.PLAYING) := by
      show ¬ (w.state = GameState.PLAYING)
      rw [hst]; decide
    exact ⟨title (advance rand dt w), by simp only [update, hadv, if_false]⟩
  | PLAYING =>
    cases hc : spikeCrossed (moved rand dt k w) with
    | true => exact ⟨_, update_death rand dt k w hst hc⟩
    | false =>
      by_cases hg : (288 : ℚ) ≤ (moved rand dt k w).py + 22
      · exact ⟨_, update_clamped rand dt k w hst hc hg⟩
      · have hg1 : (moved rand dt k w).py + 22 < (288 : ℚ) := not_le.mp hg
        by_cases hsp : w.standingPlatform = -1
        · exact ⟨_, update_airborne rand dt k w hst hc hg1 hsp⟩
        · obtain ⟨h0, hlt⟩ := hidx hsp
          have hnat : w.standingPlatform.toNat < (advance rand dt w).plats.length := by
            rw [hlen1]; omega
          exact ⟨_, update_riding rand dt k w _ hst hc hg1 hsp h0
            (List.getElem?_eq_getElem hnat)⟩

/-- From every state of the loop the next frame is defined, whatever its input:
the loop never reads `plats[standingPlatform]` past the vector. -/
theorem frame_defined (rand : Nat → Nat) (inp : FrameInput) (w : World)
    (h : Reachable rand w) : ∃ w1, frame rand inp w = some w1 := by
  obtain ⟨hlen, hinv⟩ := events_inv rand inp.events w (reachable_inv rand w h)
  unfold frame
  generalize inp.events.foldl (fun acc e => handleEvent rand e.1 acc e.2) w = we at hlen hinv
  have hidx : ({ we with prevTicks := inp.now } : World).standingPlatform ≠ -1 →
      0 ≤ ({ we with prevTicks := inp.now } : World).standingPlatform ∧
        ({ we with prevTicks := inp.now } : World).standingPlatform < 24 := by
    intro hne
    have := hinv hne
    exact ⟨this.1, this.2.1⟩
  exact update_defined rand (frameDt we.prevTicks inp.now) inp.keys
    { we with prevTicks := inp.now } hlen hidx

/-- A finite run of the loop from a state of the loop ends in a state of the loop. -/
theorem reachable_runFrames (rand : Nat → Nat) (inps : List FrameInput) (w w1 : World)
    (h : Reachable rand w) (hr : runFrames rand inps w = some w1) : Reachable rand w1 := by
  induction inps generalizing w with
  | nil =>
    simp only [runFrames, Option.some.injEq] at hr
    rw [← hr]; exact h
  | cons inp rest ih =>
    by_cases hrun : w.running = true
    · cases hf : frame rand inp w with
      | none => simp [runFrames, hrun, hf] at hr
      | some w2 =>
        simp only [runFrames, hrun, if_true, hf] at hr
        exact ih w2 (Reachable.step inp h hrun hf) hr
    · simp [runFrames, hrun] at hr

/-! ## Time step, scroll speed and platform range -/

theorem clampDt_le (dt : ℚ) : clampDt dt ≤ 33 / 1000 := by
  unfold clampDt dtMax
  split_ifs with h
  · exact le_refl _
  · exact not_lt.mp h

/-- The time step of a frame lies in `[0, 0.033]`. -/
theorem frameDt_range (prevTicks now : Nat) :
    0 ≤ frameDt prevTicks now ∧ frameDt prevTicks now ≤ 33 / 1000 := by
  refine ⟨?_, clampDt_le _⟩
  unfold frameDt clampDt dtMax
  split_ifs
  · norm_num
  · positivity

theorem castInt_nonneg (q : ℚ) (h : 0 ≤ q) : 0 ≤ castInt q := by
  unfold castInt
  rw [if_pos h]
  exact Int.floor_nonneg.mpr h

/-- The platform of index `i` after the advance loop is the loop body applied to
the platform of index `i` before it, at some position of the `rand` stream. -/
theorem advancePlats_getElem (rand : Nat → Nat) (dy : Int) (c : Nat) (ps : List Rect)
    (i : Nat) (p : Rect) (h : ps[i]? = some p) :
    ∃ c1, (advancePlats rand dy c ps).1[i]? = some (advanceOne rand dy c1 p).1 := by
  induction ps generalizing c i with
  | nil => simp at h
  | cons q ps ih =>
    cases i with
    | zero =>
      simp only [List.getElem?_cons_zero, Option.some.injEq] at h
      subst h
      exact ⟨c, by simp [advancePlats]⟩
    | succ i =>
      simp only [List.getElem?_cons_succ] at h
      obtain ⟨c1, hc1⟩ := ih (advanceOne rand dy c q).2 i h
      exact ⟨c1, by simpa [advancePlats] using hc1⟩

/-- The loop body of the advance: a platform that stays in the field moves down
by `dy` and keeps `x`, `w`, `h`; one that leaves it is drawn anew and keeps `h`. -/
theorem advanceOne_spec (rand : Nat → Nat) (dy : Int) (c : Nat) (p : Rect) :
    (advanceOne rand dy c p).1.h = p.h ∧
    (p.y + dy ≤ 300 →
      (advanceOne rand dy c p).1.y = p.y + dy ∧ (advanceOne rand dy c p).1.x = p.x ∧
        (advanceOne rand dy c p).1.w = p.w) ∧
    (300 < p.y + dy →
      -80 ≤ (advanceOne rand dy c p).1.y ∧ (advanceOne rand dy c p).1.y < -10 ∧
        30 ≤ (advanceOne rand dy c p).1.w ∧ (advanceOne rand dy c p).1.w < 65 ∧
        0 ≤ (advanceOne rand dy c p).1.x ∧
        (advanceOne rand dy c p).1.x < 300 - (advanceOne rand dy c p).1.w) := by
  by_cases hy : p.y + dy > HEIGHT
  · have hd := drawn_geometry (rand (c + 1)) (rand (c + 2))
    have hyr := irand_bounds (rand c) (-80) (-10) (by decide)
    simp only [advanceOne, hy, if_true]
    unfold HEIGHT at hy
    unfold WIDTH at hd ⊢
    refine ⟨trivial, fun hle => ?_, fun _ => ?_⟩
    · omega
    · omega
  · simp only [advanceOne, hy, if_false]
    unfold HEIGHT at hy
    refine ⟨trivial, fun _ => ⟨trivial, trivial, trivial⟩, fun hlt => ?_⟩
    omega

theorem createPlats_h (rand : Nat → Nat) (n c : Nat) :
    ∀ p ∈ createPlats rand n c, p.h = 10 := by
  induction n generalizing c with
  | zero => intro p hp; simp [createPlats] at hp
  | succ n ih =>
    intro p hp
    simp only [createPlats, List.mem_cons] at hp
    rcases hp with rfl | hp
    · rfl
    · exact ih (c + 3) p hp

theorem reshufflePlats_ok (rand : Nat → Nat) (c : Nat) (ps : List Rect)
    (h : ∀ p ∈ ps, p.h = 10) : PlatsOk (reshufflePlats rand c ps) := by
  induction ps generalizing c with
  | nil => intro p hp; simp [reshufflePlats] at hp
  | cons q ps ih =>
    intro p hp
    simp only [reshufflePlats, List.mem_cons] at hp
    rcases hp with rfl | hp
    · have hg := reshuffleOne_geometry rand c q
      have hq : (reshuffleOne rand c q).h = 10 := h q (List.mem_cons_self _ _)
      exact ⟨hg.2.2.2.2.1, le_of_lt hg.2.2.2.2.2, hq⟩
    · exact ih (c + 3) (fun p1 hp1 => h p1 (List.mem_cons_of_mem _ hp1)) p hp

theorem advancePlats_ok (rand : Nat → Nat) (dy : Int) (c : Nat) (ps : List Rect)
    (hdy : 0 ≤ dy) (h : PlatsOk ps) : PlatsOk (advancePlats rand dy c ps).1 := by
  induction ps generalizing c with
  | nil => intro p hp; simp [advancePlats] at hp
  | cons q ps ih =>
    intro p hp
    simp only [advancePlats, List.mem_cons] at hp
    rcases hp with rfl | hp
    · obtain ⟨hq1, hq2, hq3⟩ := h q (List.mem_cons_self _ _)
      obtain ⟨hh, hstay, hnew⟩ := advanceOne_spec rand dy c q
      refine ⟨?_, ?_, hh.trans hq3⟩
      · by_cases hle : q.y + dy ≤ 300
        · rw [(hstay hle).1]; omega
        · have := hnew (not_le.mp hle); omega
      · by_cases hle : q.y + dy ≤ 300
        · rw [(hstay hle).1]; exact hle
        · have := hnew (not_le.mp hle); omega
    · exact ih _ (fun p1 hp1 => h p1 (List.mem_cons_of_mem _ hp1)) p hp

/-- An event keeps the scroll speed or resets it to 80, and keeps the platform
range. -/
theorem handleEvent_bounds (rand : Nat → Nat) (ticks : Nat) (w : World) (e : Event)
    (h : 80 ≤ w.scrollSpeed ∧ PlatsOk w.plats) :
    ((handleEvent rand ticks w e).scrollSpeed = w.scrollSpeed ∨
        (handleEvent rand ticks w e).scrollSpeed = 80) ∧
      80 ≤ (handleEvent rand ticks w e).scrollSpeed ∧
      PlatsOk (handleEvent rand ticks w e).plats := by
  have hreset : ∀ w0 : World, PlatsOk w0.plats →
      PlatsOk ({ resetRun rand w0 with state := GameState.TITLE } : World).plats := by
    intro w0 h0
    exact reshufflePlats_ok rand _ _ (fun p hp => (h0 p hp).2.2)
  cases e with
  | quit => exact ⟨Or.inl rfl, h⟩
  | other => exact ⟨Or.inl rfl, h⟩
  | keydown sym =>
    simp only [handleEvent]
    split_ifs
    all_goals first
      | exact ⟨Or.inl rfl, h⟩
      | exact ⟨Or.inr rfl, le_refl _, hreset _ h.2⟩

theorem events_bounds (rand : Nat → Nat) (es : List (Nat × Event)) (w : World)
    (h : 80 ≤ w.scrollSpeed ∧ PlatsOk w.plats) :
    80 ≤ (es.foldl (fun acc e => handleEvent rand e.1 acc e.2) w).scrollSpeed ∧
      PlatsOk (es.foldl (fun acc e => handleEvent rand e.1 acc e.2) w).plats := by
  induction es generalizing w with
  | nil => exact h
  | cons e es ih => exact ih _ (handleEvent_bounds rand e.1 w e.2 h).2

/-- The advance keeps the platform range when the scroll speed and the time step
are non-negative. -/
theorem advance_bounds (rand : Nat → Nat) (dt : ℚ) (w : World) (hdt : 0 ≤ dt)
    (h : 80 ≤ w.scrollSpeed ∧ PlatsOk w.plats) :
    (advance rand dt w).scrollSpeed = w.scrollSpeed + 3 * dt ∧
      80 ≤ (advance rand dt w).scrollSpeed ∧ PlatsOk (advance rand dt w).plats := by
  have hss : (advance rand dt w).scrollSpeed = w.scrollSpeed + 3 * dt := by
    simp [advance, scrollAccel]
  refine ⟨hss, by rw [hss]; linarith [h.1], ?_⟩
  show PlatsOk (advancePlats rand (castInt ((w.scrollSpeed + scrollAccel * dt) * dt))
    w.randCalls w.plats).1
  apply advancePlats_ok rand _ _ _ _ h.2
  apply castInt_nonneg
  unfold scrollAccel
  have : 0 ≤ w.scrollSpeed + 3 * dt := by linarith [h.1]
  exact mul_nonneg this hdt

/-- What an update does to the scroll speed: it adds `3 * dt`, in TITLE as in
PLAYING, unless a death resets it to 80. -/
theorem update_scrollSpeed (rand : Nat → Nat) (dt : ℚ) (k : Keys) (w w1 : World)
    (hu : update rand dt k w = some w1) :
    (w1.scrollSpeed = w.scrollSpeed + 3 * dt ∧ w1.plats = (advance rand dt w).plats) ∨
      (w.state = GameState.PLAYING ∧ w1.state = GameState.TITLE ∧ w1.scrollSpeed = 80 ∧
        w1.plats =
          reshufflePlats rand (advance rand dt w).randCalls (advance rand dt w).plats) := by
  have hss : (advance rand dt w).scrollSpeed = w.scrollSpeed + 3 * dt := by
    simp [advance, scrollAccel]
  cases hst : w.state with
  | TITLE =>
    have hadv : ¬ ((advance rand dt w).state = GameState.PLAYING) := by
      show ¬ (w.state = GameState.PLAYING)
      rw [hst]; decide
    simp only [update, hadv, if_false, Option.some.injEq] at hu
    subst hu
    exact Or.inl ⟨hss, rfl⟩
  | PLAYING =>
    cases hc : spikeCrossed (moved rand dt k w) with
    | true =>
      rw [update_death rand dt k w hst hc] at hu
      simp only [Option.some.injEq] at hu
      subst hu
      exact Or.inr ⟨rfl, rfl, rfl, rfl⟩
    | false =>
      obtain ⟨_, _, _, _, hp, hs1⟩ := update_alive_fields rand dt k w w1 hst hc hu
      exact Or.inl ⟨hs1.trans hss, hp⟩

theorem update_bounds (rand : Nat → Nat) (dt : ℚ) (k : Keys) (w w1 : World) (hdt : 0 ≤ dt)
    (h : 80 ≤ w.scrollSpeed ∧ PlatsOk w.plats) (hu : update rand dt k w = some w1) :
    80 ≤ w1.scrollSpeed ∧ PlatsOk w1.plats := by
  obtain ⟨_, _, hok⟩ := advance_bounds rand dt w hdt h
  rcases update_scrollSpeed rand dt k w w1 hu with ⟨h1, h2⟩ | ⟨_, _, h1, h2⟩
  · rw [h1, h2]
    exact ⟨by linarith [h.1], hok⟩
  · rw [h1, h2]
    exact ⟨le_refl _, reshufflePlats_ok rand _ _ (fun p hp => (hok p hp).2.2)⟩

theorem frame_bounds (rand : Nat → Nat) (inp : FrameInput) (w w1 : World)
    (h : 80 ≤ w.scrollSpeed ∧ PlatsOk w.plats) (hf : frame rand inp w = some w1) :
    80 ≤ w1.scrollSpeed ∧ PlatsOk w1.plats := by
  obtain ⟨h1, h2⟩ := events_bounds rand inp.events w h
  unfold frame at hf
  generalize inp.events.foldl (fun acc e => handleEvent rand e.1 acc e.2) w = we at h1 h2 hf
  have hb : 80 ≤ ({ we with prevTicks := inp.now } : World).scrollSpeed ∧
      PlatsOk ({ we with prevTicks := inp.now } : World).plats := ⟨h1, h2⟩
  exact update_bounds rand (frameDt we.prevTicks inp.now) inp.keys
    { we with prevTicks := inp.now } w1 (frameDt_range _ _).1 hb hf

/-- Every state of the loop has scroll speed at least 80 and its platforms in
the vertical range `[-300, 300]`, of height 10. -/
theorem reachable_bounds (rand : Nat → Nat) (w : World) (h : Reachable rand w) :
    80 ≤ w.scrollSpeed ∧ PlatsOk w.plats := by
  induction h with
  | init t0 =>
    refine ⟨le_refl _, ?_⟩
    exact reshufflePlats_ok rand _ _ (createPlats_h rand PLAT_COUNT 0)
  | step inp _ _ hf ih => exact frame_bounds rand inp _ _ ih hf

/-- An event other than a start input keeps the TITLE state. -/
theorem handleEvent_title (rand : Nat → Nat) (ticks : Nat) (w : World) (e : Event)
    (hs : w.state = GameState.TITLE) (h1 : e ≠ Event.keydown Key.RETURN)
    (h2 : e ≠ Event.keydown Key.KP_ENTER) :
    (handleEvent rand ticks w e).state = GameState.TITLE := by
  cases e with
  | quit => exact hs
  | other => exact hs
  | keydown sym =>
    have hr : sym ≠ Key.RETURN := fun h => h1 (by rw [h])
    have hk : sym ≠ Key.KP_ENTER := fun h => h2 (by rw [h])
    simp only [handleEvent]
    split_ifs <;> simp_all

/-- Events other than a start input keep the TITLE state. -/
theorem events_title (rand : Nat → Nat) (es : List (Nat × Event)) (w : World)
    (hs : w.state = GameState.TITLE)
    (hno : ∀ e ∈ es, e.2 ≠ Event.keydown Key.RETURN ∧ e.2 ≠ Event.keydown Key.KP_ENTER) :
    (es.foldl (fun acc e => handleEvent rand e.1 acc e.2) w).state = GameState.TITLE := by
  induction es generalizing w with
  | nil => exact hs
  | cons e es ih =>
    apply ih
    · obtain ⟨h1, h2⟩ := hno e (List.mem_cons_self _ _)
      exact handleEvent_title rand e.1 w e.2 hs h1 h2
    · intro e1 he1
      exact hno e1 (List.mem_cons_of_mem _ he1)

/-- The TITLE branch: the player is put in the resting pose. -/
theorem update_title (rand : Nat → Nat) (dt : ℚ) (k : Keys) (w : World)
    (hs : w.state = GameState.TITLE) :
    update rand dt k w = some (title (advance rand dt w)) := by
  have hadv : ¬ ((advance rand dt w).state = GameState.PLAYING) := by
    show ¬ (w.state = GameState.PLAYING)
    rw [hs]; decide
  simp only [update, hadv, if_false]

theorem title_pose (w : World) :
    (title w).state = w.state ∧ (title w).px = 139 ∧ (title w).py = 266 ∧ (title w).vx = 0 ∧
      (title w).vy = 0 ∧ (title w).onGround = true ∧ (title w).standingPlatform = -1 ∧
      (title w).playerX = 139 ∧ (title w).playerY = 266 := by
  have h1 : ((WIDTH / 2 - player_w / 2 : Int) : ℚ) = 139 := by
    norm_num [WIDTH, player_w]
  have h2 : ((spikeTop - player_h : Int) : ℚ) = 266 := by
    norm_num [spikeTop, HEIGHT, SPIKE_H, player_h]
  have h3 : castInt ((WIDTH / 2 - player_w / 2 : Int) : ℚ) = 139 := by
    rw [castInt_intCast]; norm_num [WIDTH, player_w]
  have h4 : castInt ((spikeTop - player_h : Int) : ℚ) = 266 := by
    rw [castInt_intCast]; norm_num [spikeTop, HEIGHT, SPIKE_H, player_h]
  exact ⟨rfl, h1, h2, rfl, rfl, rfl, rfl, h3, h4⟩

/-- From an unattached start, a PLAYING update that does not end in death leaves
the feet at or above the spike top. -/
theorem hazard_floor_unattached (rand : Nat → Nat) (dt : ℚ) (k : Keys) (w w1 : World)
    (hs : w.state = GameState.PLAYING) (hsp : w.standingPlatform = -1)
    (hu : update rand dt k w = some w1) (h1 : w1.state = GameState.PLAYING) :
    w1.py + 22 ≤ 288 := by
  have hc := alive_of_playing rand dt k w w1 hs hu h1
  rcases update_alive_cases rand dt k w w1 hs hc hu with
    ⟨_, rfl⟩ | ⟨_, hne, _⟩ | ⟨_, hne, _⟩ | ⟨hg, _, rfl⟩ | ⟨hg, _, j, pl, _, hm, rfl⟩
  · show (266 : ℚ) + 22 ≤ 288
    norm_num
  · exact absurd hsp hne
  · exact absurd hsp hne
  · exact le_of_lt hg
  · simp only [Bool.and_eq_true, crossedTop, decide_eq_true_eq] at hm
    have hq : (pl.y : ℚ) ≤ (moved rand dt k w).py + 22 := hm.2.2
    show ((pl.y - player_h : Int) : ℚ) + 22 ≤ 288
    have : ((pl.y - player_h : Int) : ℚ) = (pl.y : ℚ) - 22 := by simp [player_h]
    rw [this]
    linarith

/-- Riding on without a recycle: when the player starts on the top of platform
`i`, that platform stays in the field and the update ends riding `i`, `py` grows
by the scroll step. -/
theorem riding_step_without_recycle (rand : Nat → Nat) (dt : ℚ) (k : Keys) (w w1 : World)
    (i : Nat) (p : Rect) (hs : w.state = GameState.PLAYING)
    (hsp : w.standingPlatform = (i : Int)) (hp : w.plats[i]? = some p)
    (hfeet : w.py + 22 = (p.y : ℚ))
    (hstay : p.y + castInt ((w.scrollSpeed + 3 * dt) * dt) ≤ 300)
    (hu : update rand dt k w = some w1) (h1 : w1.standingPlatform = (i : Int)) :
    w1.py = w.py + ((castInt ((w.scrollSpeed + 3 * dt) * dt) : Int) : ℚ) := by
  have hne1 : w1.standingPlatform ≠ -1 := by rw [h1]; omega
  have hc : spikeCrossed (moved rand dt k w) = false := by
    cases hcc : spikeCrossed (moved rand dt k w) with
    | false => rfl
    | true =>
      rw [update_death rand dt k w hs hcc] at hu
      simp only [Option.some.injEq] at hu
      rw [← hu] at hne1
      exact absurd rfl hne1
  have hplats : (advance rand dt w).plats =
      (advancePlats rand (castInt ((w.scrollSpeed + 3 * dt) * dt)) w.randCalls w.plats).1 := rfl
  obtain ⟨c1, hc1⟩ := advancePlats_getElem rand (castInt ((w.scrollSpeed + 3 * dt) * dt))
    w.randCalls w.plats i p hp
  have hy := ((advanceOne_spec rand (castInt ((w.scrollSpeed + 3 * dt) * dt)) c1 p).2.1 hstay).1
  rcases update_alive_cases rand dt k w w1 hs hc hu with
    ⟨_, rfl⟩ | ⟨_, _, _, pl, hpl, _, rfl⟩ | ⟨_, _, _, pl, _, _, rfl⟩ | ⟨_, hm1, _⟩ |
    ⟨_, hm1, _⟩
  · exact absurd rfl hne1
  · rw [hsp, Int.toNat_ofNat, hplats, hc1] at hpl
    have hpl1 : pl = (advanceOne rand (castInt ((w.scrollSpeed + 3 * dt) * dt)) c1 p).1 :=
      (Option.some.inj hpl).symm
    show ((pl.y - player_h : Int) : ℚ) = _
    rw [hpl1, hy]
    simp only [player_h]
    push_cast
    linarith
  · exact absurd rfl hne1
  · rw [hsp] at hm1; omega
  · rw [hsp] at hm1; omega

/-! ## The long run under `rand120` -/

/-- Under `rand120` the advance loop moves a column of equal platforms together. -/
theorem advancePlats_column (dy : Int) (y : Int) (n c : Nat) :
    advancePlats rand120 dy c (List.replicate n { x := 120, y := y, w := 45, h := 10 }) =
      if y + dy > 300 then
        (List.replicate n { x := 120, y := -30, w := 45, h := 10 }, c + 3 * n)
      else (List.replicate n { x := 120, y := y + dy, w := 45, h := 10 }, c) := by
  induction n generalizing c with
  | zero => split <;> rfl
  | succ n ih =>
    by_cases h : y + dy > 300
    · have h1 : advanceOne rand120 dy c { x := 120, y := y, w := 45, h := 10 } =
          ({ x := 120, y := -30, w := 45, h := 10 }, c + 3) := by
        have hH : y + dy > HEIGHT := h
        have e1 : irand 120 30 65 = 45 := by decide
        have e2 : irand 120 (-80) (-10) = -30 := by decide
        have e3 : irand 120 0 (WIDTH - 45) = 120 := by decide
        simp only [advanceOne, hH, if_true, rand120, e1, e2, e3]
      rw [List.replicate_succ, advancePlats, h1, ih, if_pos h, if_pos h]
      simp only [List.replicate_succ, Prod.mk.injEq, true_and]
      omega
    · have h1 : advanceOne rand120 dy c { x := 120, y := y, w := 45, h := 10 } =
          ({ x := 120, y := y + dy, w := 45, h := 10 }, c) := by
        have hH : ¬ (y + dy > HEIGHT) := h
        simp only [advanceOne, hH, if_false]
      rw [List.replicate_succ, advancePlats, h1, ih, if_neg h, if_neg h]
      simp only [List.replicate_succ]

theorem frameDt_33 (t : Nat) : frameDt t (t + 33) = 33 / 1000 := by
  have h1 : ((t + 33) % 2 ^ 32 + 2 ^ 32 - t % 2 ^ 32) % 2 ^ 32 = 33 := by
    norm_num
    omega
  unfold frameDt
  rw [h1]
  norm_num [clampDt, dtMax]

/-- One idle TITLE frame of the long run. -/
theorem title_frame_column (ss : ℚ) (y : Int) (t c : Nat) :
    frame rand120 { events := [], now := t + 33, keys := noKeys } (titleWorldAt ss y t c) =
      some (titleWorldAt (titleStep (ss, y, c)).1 (titleStep (ss, y, c)).2.1 (t + 33)
        (titleStep (ss, y, c)).2.2) := by
  have hdt : frameDt t (t + 33) = 33 / 1000 := frameDt_33 t
  show update rand120 (frameDt t (t + 33)) noKeys
    { titleWorldAt ss y t c with prevTicks := t + 33 } = _
  rw [hdt, update_title _ _ _ _ rfl]
  have hp := title_pose (advance rand120 (33 / 1000)
    { titleWorldAt ss y t c with prevTicks := t + 33 })
  have hcol := advancePlats_column (castInt ((ss + 3 * (33 / 1000)) * (33 / 1000))) y 24 c
  congr 1
  by_cases h : y + castInt ((ss + 3 * (33 / 1000)) * (33 / 1000)) > 300
  · rw [if_pos h] at hcol
    simp only [titleStep, if_pos h]
    simp only [title, writeBack, centerPlayer, advance, titleWorldAt, scrollAccel, hcol,
      castInt_intCast]
    norm_num [WIDTH, player_w, spikeTop, HEIGHT, SPIKE_H, player_h]
  · rw [if_neg h] at hcol
    simp only [titleStep, if_neg h]
    simp only [title, writeBack, centerPlayer, advance, titleWorldAt, scrollAccel, hcol,
      castInt_intCast]
    norm_num [WIDTH, player_w, spikeTop, HEIGHT, SPIKE_H, player_h]

/-- Idle TITLE frames of the long run, `n` of them. -/
theorem title_run_column (n : Nat) : ∀ (ss : ℚ) (y : Int) (t c : Nat),
    runFrames rand120 (idleFrames t 33 n) (titleWorldAt ss y t c) =
      some (titleWorldAt (titleStep^[n] (ss, y, c)).1 (titleStep^[n] (ss, y, c)).2.1
        (t + 33 * n) (titleStep^[n] (ss, y, c)).2.2) := by
  induction n with
  | zero => intro ss y t c; rfl
  | succ n ih =>
    intro ss y t c
    have hrun : (titleWorldAt ss y t c).running = true := rfl
    simp only [idleFrames, runFrames, hrun, if_true, title_frame_column ss y t c]
    rw [ih, Function.iterate_succ_apply]
    have : t + 33 + 33 * n = t + 33 * (n + 1) := by omega
    rw [this]

theorem titleStep_chunk (k : Nat) (a b c : ℚ × Int × Nat) (h1 : titleStep^[k] a = b)
    (h2 : titleStep^[500] b = c) : titleStep^[k + 500] a = c := by
  rw [Nat.add_comm, Function.iterate_add_apply, h1, h2]

/-- The parameters of the title state after 5304 idle frames of 33 ms. -/
theorem titleStep_5304 :
    titleStep^[5304] (80, -180, 144) = (75637 / 125, 236, 12240) := by
  have c0 : titleStep^[0] ((80, -180, 144) : ℚ × Int × Nat) = (80, -180, 144) := rfl
  have c1 := titleStep_chunk 0 _ _ (259 / 2, 298, 360) c0 (by decide!)
  have c2 := titleStep_chunk 500 _ _ (179, 240, 864) c1 (by decide!)
  have c3 := titleStep_chunk 1000 _ _ (457 / 2, 26, 1584) c2 (by decide!)
  have c4 := titleStep_chunk 1500 _ _ (278, 249, 2376) c3 (by decide!)
  have c5 := titleStep_chunk 2000 _ _ (655 / 2, 290, 3384) c4 (by decide!)
  have c6 := titleStep_chunk 2500 _ _ (377, 102, 4608) c5 (by decide!)
  have c7 := titleStep_chunk 3000 _ _ (853 / 2, 40, 5976) c6 (by decide!)
  have c8 := titleStep_chunk 3500 _ _ (476, 120, 7488) c7 (by decide!)
  have c9 := titleStep_chunk 4000 _ _ (1051 / 2, 4, 9216) c8 (by decide!)
  have c10 := titleStep_chunk 4500 _ _ (575, 276, 11016) c9 (by decide!)
  have c11 : titleStep^[304] ((575, 276, 11016) : ℚ × Int × Nat) =
      (75637 / 125, 236, 12240) := by decide!
  have h : titleStep^[304 + 5000] ((80, -180, 144) : ℚ × Int × Nat) =
      (75637 / 125, 236, 12240) := by
    rw [Function.iterate_add_apply]
    exact (congrArg (titleStep^[304]) c10).trans c11
  exact h

/-- The world `rideFastWorld` is a state of the loop: 5304 idle TITLE frames
under `rand120`, then a start, a jump and 19 more frames. -/
theorem rideFastWorld_reachable : Reachable rand120 rideFastWorld := by
  have e0 : initWorld rand120 0 = titleWorldAt 80 (-180) 0 144 := by decide!
  have h0 : Reachable rand120 (titleWorldAt 80 (-180) 0 144) := by
    rw [← e0]; exact Reachable.init 0
  have hrun := title_run_column 5304 80 (-180) 0 144
  rw [titleStep_5304] at hrun
  have h1 := reachable_runFrames rand120 (idleFrames 0 33 5304) _ _ h0 hrun
  exact reachable_runFrames rand120 fastRunTail _ rideFastWorld h1 (by decide!)

/-! ## Theorems -/

/-- C1: a PLAYING update takes the death transition (the run is reset and the
state becomes TITLE) if and only if, after gravity and integration, `vy > 0` and
`prevFeet < 288 ≤ curFeet`, for every time step, held keys and platforms. -/
theorem spike_death_iff_swept_crossing (rand : Nat → Nat) (dt : ℚ) (k : Keys) (w : World)
    (hs : w.state = GameState.PLAYING) :
    ((∃ w1, update rand dt k w = some w1 ∧ w1.state = GameState.TITLE) ↔
      ((if w.standingPlatform = -1 then w.vy + 600 * dt else w.vy) > 0 ∧ w.py + 22 < 288 ∧
        288 ≤ w.py + (if w.standingPlatform = -1 then w.vy + 600 * dt else w.vy) * dt + 22)) ∧
    (((if w.standingPlatform = -1 then w.vy + 600 * dt else w.vy) > 0 ∧ w.py + 22 < 288 ∧
        288 ≤ w.py + (if w.standingPlatform = -1 then w.vy + 600 * dt else w.vy) * dt + 22) →
      update rand dt k w = some
        { resetRun rand (walls (integrate dt (heldInput k (advance rand dt w)))) with
          state := GameState.TITLE }) := by
  have hadv : (advance rand dt w).state = GameState.PLAYING := hs
  have hc := spikeCrossed_integrated rand dt k w
  have hdeath : ((if w.standingPlatform = -1 then w.vy + 600 * dt else w.vy) > 0 ∧
      w.py + 22 < 288 ∧
      288 ≤ w.py + (if w.standingPlatform = -1 then w.vy + 600 * dt else w.vy) * dt + 22) →
      update rand dt k w = some
        { resetRun rand (walls (integrate dt (heldInput k (advance rand dt w)))) with
          state := GameState.TITLE } := by
    intro h
    have ht := hc.mpr h
    simp only [update, hadv, if_true, playing, ht]
  refine ⟨⟨?_, ?_⟩, hdeath⟩
  · rintro ⟨w1, hu, ht⟩
    by_contra hn
    have hf : spikeCrossed (walls (integrate dt (heldInput k (advance rand dt w)))) = false := by
      cases hsc : spikeCrossed (walls (integrate dt (heldInput k (advance rand dt w))))
      · rfl
      · exact absurd (hc.mp hsc) hn
    simp only [update, hadv, if_true, playing, hf, Bool.false_eq_true, if_false,
      Option.map_eq_some'] at hu
    obtain ⟨w2, hr, hl⟩ := hu
    have h1 := riding_state hr
    have h2 := landing_state w2
    rw [hl] at h2
    rw [h2, h1] at ht
    have h3 : (writeBack (groundClamp { walls (integrate dt (heldInput k (advance rand dt w))) with
        onGround := false })).state = GameState.PLAYING := by
      show (groundClamp _).state = _
      rw [groundClamp_state]
      exact hs
    rw [h3] at ht
    exact absurd ht (by decide)
  · intro h
    exact ⟨_, hdeath h, rfl⟩

/-- Witness for C1: the player falling just above the spikes (`py = 265`,
`vy = 50`), one update of `dt = 1/32`. -/
theorem spike_death_iff_swept_crossing_witness :
    spikeFallWorld.state = GameState.PLAYING ∧
    (((∃ w1, update zeroRand (1 / 32) noKeys spikeFallWorld = some w1 ∧
        w1.state = GameState.TITLE) ↔
      ((if spikeFallWorld.standingPlatform = -1 then spikeFallWorld.vy + 600 * (1 / 32)
          else spikeFallWorld.vy) > 0 ∧ spikeFallWorld.py + 22 < 288 ∧
        288 ≤ spikeFallWorld.py +
          (if spikeFallWorld.standingPlatform = -1 then spikeFallWorld.vy + 600 * (1 / 32)
            else spikeFallWorld.vy) * (1 / 32) + 22)) ∧
    (((if spikeFallWorld.standingPlatform = -1 then spikeFallWorld.vy + 600 * (1 / 32)
          else spikeFallWorld.vy) > 0 ∧ spikeFallWorld.py + 22 < 288 ∧
        288 ≤ spikeFallWorld.py +
          (if spikeFallWorld.standingPlatform = -1 then spikeFallWorld.vy + 600 * (1 / 32)
            else spikeFallWorld.vy) * (1 / 32) + 22) →
      update zeroRand (1 / 32) noKeys spikeFallWorld = some
        { resetRun zeroRand
            (walls (integrate (1 / 32) (heldInput noKeys (advance zeroRand (1 / 32) spikeFallWorld))))
          with state := GameState.TITLE })) :=
  ⟨rfl, spike_death_iff_swept_crossing zeroRand (1 / 32) noKeys spikeFallWorld rfl⟩

/-- C2: landing needs horizontal overlap and a downward crossing of the top edge
in the same update.  If a PLAYING update ends with `standingPlatform = i`, a
platform index different from the value at the start, then the player was
unattached, platform `i` after this update's advance overlaps the player
horizontally, `vy > 0` before the snap, and `prevFeet ≤ pl.y ≤ curFeet`; so a
player whose feet started strictly below that top (`prevFeet > pl.y`) has not
landed on it. -/
theorem landing_requires_overlap_and_crossing (rand : Nat → Nat) (dt : ℚ) (k : Keys)
    (w w1 : World) (i : Int) (hs : w.state = GameState.PLAYING)
    (hu : update rand dt k w = some w1) (hi : w1.standingPlatform = i)
    (hne : i ≠ w.standingPlatform) (hi1 : i ≠ -1) :
    0 ≤ i ∧ w.standingPlatform = -1 ∧ w1.plats = (advance rand dt w).plats ∧
      ∃ pl, w1.plats[i.toNat]? = some pl ∧
        w1.playerX + 22 > pl.x ∧ w1.playerX < pl.x + pl.w ∧
        w.vy + 600 * dt > 0 ∧
        w.py + 22 ≤ (pl.y : ℚ) ∧ (pl.y : ℚ) ≤ w.py + (w.vy + 600 * dt) * dt + 22 ∧
        ¬ (w.py + 22 > (pl.y : ℚ)) := by
  cases hc : spikeCrossed (moved rand dt k w) with
  | true =>
    rw [update_death rand dt k w hs hc] at hu
    simp only [Option.some.injEq] at hu
    subst hu
    exact absurd hi.symm hi1
  | false =>
    by_cases hg : (288 : ℚ) ≤ (moved rand dt k w).py + 22
    · rw [update_clamped rand dt k w hs hc hg] at hu
      simp only [Option.some.injEq] at hu
      subst hu
      exact absurd hi.symm hi1
    · have hg1 : (moved rand dt k w).py + 22 < (288 : ℚ) := not_le.mp hg
      by_cases hsp : w.standingPlatform = -1
      · rw [update_airborne rand dt k w hs hc hg1 hsp] at hu
        simp only [Option.some.injEq] at hu
        rcases landingScan_spec (writeBack { moved rand dt k w with onGround := false })
            ((moved rand dt k w).prevPy + 22) ((moved rand dt k w).py + 22)
            (moved rand dt k w).plats 0 with ⟨he, _⟩ | ⟨j, pl, hj, hm, _, he⟩
        · rw [he] at hu
          subst hu
          exact absurd (hi.symm.trans hsp) hi1
        · rw [he] at hu
          subst hu
          have hij : i = (j : Int) := by
            rw [← hi]; simp [landOn]
          subst hij
          simp only [Bool.and_eq_true, overHoriz, crossedTop, decide_eq_true_eq, writeBack,
            moved_vy, moved_py, moved_prevPy, hsp, if_true, player_w] at hm
          obtain ⟨⟨hx1, hx2⟩, ⟨hv, hp⟩, hq⟩ := hm
          refine ⟨Int.natCast_nonneg j, hsp, rfl, pl, ?_, ?_, ?_, hv, hp, hq, not_lt.mpr hp⟩
          · simpa [landOn, writeBack] using hj
          · simpa [landOn, writeBack] using hx1
          · simpa [landOn, writeBack] using hx2
      · exfalso
        by_cases hv : 0 ≤ w.standingPlatform ∧
            ∃ pl, (advance rand dt w).plats[w.standingPlatform.toNat]? = some pl
        · obtain ⟨h0, pl, hpl⟩ := hv
          rw [update_riding rand dt k w pl hs hc hg1 hsp h0 hpl] at hu
          simp only [Option.some.injEq] at hu
          subst hu
          split at hi
          · exact hne hi.symm
          · exact hi1 hi.symm
        · have hbad : w.standingPlatform < 0 ∨
              (advance rand dt w).plats[w.standingPlatform.toNat]? = none := by
            by_cases h0 : 0 ≤ w.standingPlatform
            · right
              cases hpl : (advance rand dt w).plats[w.standingPlatform.toNat]? with
              | none => rfl
              | some pl => exact absurd ⟨h0, pl, hpl⟩ hv
            · left; exact not_le.mp h0
          rw [update_riding_undefined rand dt k w hs hc hg1 hsp hbad] at hu
          exact absurd hu (by simp)

/-- Witness for C2: the falling scenario in the frame of the landing: the
update takes `fallWorld` (unattached) to `fallLanded` (on platform 0). -/
theorem landing_requires_overlap_and_crossing_witness :
    fallWorld.state = GameState.PLAYING ∧
    update zeroRand (33 / 1000) noKeys fallWorld = some fallLanded ∧
    fallLanded.standingPlatform = 0 ∧ (0 : Int) ≠ fallWorld.standingPlatform ∧
    (0 : Int) ≠ -1 ∧
    ((0 : Int) ≤ 0 ∧ fallWorld.standingPlatform = -1 ∧
      fallLanded.plats = (advance zeroRand (33 / 1000) fallWorld).plats ∧
      ∃ pl, fallLanded.plats[(0 : Int).toNat]? = some pl ∧
        fallLanded.playerX + 22 > pl.x ∧ fallLanded.playerX < pl.x + pl.w ∧
        fallWorld.vy + 600 * (33 / 1000) > 0 ∧
        fallWorld.py + 22 ≤ (pl.y : ℚ) ∧
        (pl.y : ℚ) ≤ fallWorld.py + (fallWorld.vy + 600 * (33 / 1000)) * (33 / 1000) + 22 ∧
        ¬ (fallWorld.py + 22 > (pl.y : ℚ))) :=
  ⟨rfl, by decide!, rfl, by decide, by decide,
    landing_requires_overlap_and_crossing zeroRand (33 / 1000) noKeys fallWorld fallLanded 0 rfl
      (by decide!) rfl (by decide) (by decide)⟩

/-- C3: landing postcondition.  In a PLAYING update that starts unattached, has
`vy > 0` after gravity, no hazard death and no hazard clamp (`curFeet < 288`),
and in which some platform `i` (after the advance) is overlapped horizontally
and has its top crossed (`prevFeet ≤ pl.y ≤ curFeet`), the update ends landed:
for the landed platform `j` (the first such platform, so `j ≤ i`),
`py = pl.y - 22`, `vy = 0`, `onGround = true` and `standingPlatform = j`. -/
theorem landing_postcondition (rand : Nat → Nat) (dt : ℚ) (k : Keys) (w : World)
    (i : Nat) (pl : Rect) (hs : w.state = GameState.PLAYING)
    (hsp : w.standingPlatform = -1) (hv : w.vy + 600 * dt > 0)
    (hpl : (advance rand dt w).plats[i]? = some pl)
    (hx1 : castInt (moved rand dt k w).px + 22 > pl.x)
    (hx2 : castInt (moved rand dt k w).px < pl.x + pl.w)
    (hp : w.py + 22 ≤ (pl.y : ℚ)) (hq : (pl.y : ℚ) ≤ w.py + (w.vy + 600 * dt) * dt + 22)
    (hg : w.py + (w.vy + 600 * dt) * dt + 22 < 288) :
    ∃ (w1 : World) (j : Nat) (pl1 : Rect), update rand dt k w = some w1 ∧
      w1.state = GameState.PLAYING ∧ j ≤ i ∧ w1.plats[j]? = some pl1 ∧
      w1.playerX + 22 > pl1.x ∧ w1.playerX < pl1.x + pl1.w ∧
      w.py + 22 ≤ (pl1.y : ℚ) ∧ (pl1.y : ℚ) ≤ w.py + (w.vy + 600 * dt) * dt + 22 ∧
      w1.py = (pl1.y : ℚ) - 22 ∧ w1.playerY = pl1.y - 22 ∧ w1.vy = 0 ∧ w1.onGround = true ∧
      w1.standingPlatform = (j : Int) := by
  have hpy : (moved rand dt k w).py = w.py + (w.vy + 600 * dt) * dt := by
    rw [moved_py, if_pos hsp]
  have hg1 : (moved rand dt k w).py + 22 < (288 : ℚ) := by rw [hpy]; exact hg
  have hc : spikeCrossed (moved rand dt k w) = false := by
    rw [Bool.eq_false_iff]
    intro h
    simp only [spikeCrossed, Bool.and_eq_true, decide_eq_true_eq, player_h, spikeTop, HEIGHT,
      SPIKE_H] at h
    have h2 := h.2
    norm_num at h2
    linarith
  rw [update_airborne rand dt k w hs hc hg1 hsp]
  have hmatch : (overHoriz (writeBack { moved rand dt k w with onGround := false }) pl &&
      crossedTop (writeBack { moved rand dt k w with onGround := false })
        ((moved rand dt k w).prevPy + 22) ((moved rand dt k w).py + 22) pl) = true := by
    simp only [Bool.and_eq_true, overHoriz, crossedTop, decide_eq_true_eq, writeBack,
      moved_vy, moved_py, moved_prevPy, hsp, if_true, player_w]
    exact ⟨⟨hx1, hx2⟩, ⟨hv, hp⟩, hq⟩
  rcases landingScan_spec (writeBack { moved rand dt k w with onGround := false })
      ((moved rand dt k w).prevPy + 22) ((moved rand dt k w).py + 22)
      (moved rand dt k w).plats 0 with ⟨_, hall⟩ | ⟨j, pl1, hj, hm, hfirst, he⟩
  · have := hall i pl hpl
    rw [hmatch] at this
    exact absurd this (by decide)
  · have hji : j ≤ i := by
      by_contra hlt
      have := hfirst i pl (not_le.mp hlt) hpl
      rw [hmatch] at this
      exact absurd this (by decide)
    simp only [Bool.and_eq_true, overHoriz, crossedTop, decide_eq_true_eq, writeBack,
      moved_vy, moved_py, moved_prevPy, hsp, if_true, player_w] at hm
    obtain ⟨⟨h1, h2⟩, ⟨_, h3⟩, h4⟩ := hm
    refine ⟨landOn (writeBack { moved rand dt k w with onGround := false }) pl1 (0 + j), j, pl1,
      by rw [he], hs, hji, hj, h1, h2, h3, h4, ?_, ?_, rfl, rfl, ?_⟩
    · simp [landOn, player_h]
    · simp [landOn, player_h]
    · simp [landOn]

/-- Witness for C3: scroll speed 80, a platform at `x = 100, y = 50, w = 40`,
the player over it falling from `y = 0` under gravity 600.  After 12 frames of
33 ms the world is `fallWorld`; in the next update the platform is at `y = 76`
and the feet go from about 72.97 to about 81.46. -/
theorem landing_postcondition_witness :
    runFrames zeroRand (idleFrames 0 33 12) fallStart = some fallWorld ∧
    fallWorld.state = GameState.PLAYING ∧ fallWorld.standingPlatform = -1 ∧
    fallWorld.vy + 600 * (33 / 1000) > 0 ∧
    (advance zeroRand (33 / 1000) fallWorld).plats[0]? =
      some { x := 100, y := 76, w := 40, h := 10 } ∧
    castInt (moved zeroRand (33 / 1000) noKeys fallWorld).px + 22 > 100 ∧
    castInt (moved zeroRand (33 / 1000) noKeys fallWorld).px < 100 + 40 ∧
    fallWorld.py + 22 ≤ ((76 : Int) : ℚ) ∧
    ((76 : Int) : ℚ) ≤ fallWorld.py + (fallWorld.vy + 600 * (33 / 1000)) * (33 / 1000) + 22 ∧
    fallWorld.py + (fallWorld.vy + 600 * (33 / 1000)) * (33 / 1000) + 22 < 288 ∧
    (∃ (w1 : World) (j : Nat) (pl1 : Rect),
      update zeroRand (33 / 1000) noKeys fallWorld = some w1 ∧
      w1.state = GameState.PLAYING ∧ j ≤ 0 ∧ w1.plats[j]? = some pl1 ∧
      w1.playerX + 22 > pl1.x ∧ w1.playerX < pl1.x + pl1.w ∧
      fallWorld.py + 22 ≤ (pl1.y : ℚ) ∧
      (pl1.y : ℚ) ≤ fallWorld.py + (fallWorld.vy + 600 * (33 / 1000)) * (33 / 1000) + 22 ∧
      w1.py = (pl1.y : ℚ) - 22 ∧ w1.playerY = pl1.y - 22 ∧ w1.vy = 0 ∧ w1.onGround = true ∧
      w1.standingPlatform = (j : Int)) :=
  ⟨by decide!, rfl, rfl, by decide!, by decide!, by decide!, by decide!, by decide!,
    by decide!, by decide!,
    landing_postcondition zeroRand (33 / 1000) noKeys fallWorld 0
      { x := 100, y := 76, w := 40, h := 10 } rfl rfl (by decide!) (by decide!) (by decide!)
      (by decide!) (by decide!) (by decide!) (by decide!)⟩

/-- C4, as stated, fails.  `rideLowWorld` is the state 34 frames into a run of
the loop: the player rides platform 0 and still overlaps it after the advance
(platform at `x = 120, y = 290, w = 40`, `player.x = 139`), yet the update ends
detached, on the hazard floor: `standingPlatform = -1` and `py = 266`, not
`290 - 22`. -/
theorem riding_continuity_counterexample :
    runFrames landRand (jumpFrames 33) (initWorld landRand 0) = some rideLowWorld ∧
      rideLowWorld.state = GameState.PLAYING ∧ rideLowWorld.standingPlatform = 0 ∧
      (advance landRand (33 / 1000) rideLowWorld).plats[0]? =
        some { x := 120, y := 290, w := 40, h := 10 } ∧
      (update landRand (33 / 1000) noKeys rideLowWorld).map World.playerX = some 139 ∧
      (update landRand (33 / 1000) noKeys rideLowWorld).map World.standingPlatform =
        some (-1) ∧
      (update landRand (33 / 1000) noKeys rideLowWorld).map World.py = some 266 := by
  decide!

/-- C4, amended: riding continuity short of the hazard floor.  In a PLAYING
update that starts riding platform `i`, if the feet after integration are above
the spike top (`py + vy * dt + 22 < 288`, so neither the death nor the ground
clamp fires) and the player still overlaps platform `i` after the advance, the
update ends with `standingPlatform = i` and `py = player.y = plats[i].y - 22`;
and whenever the update ends with `standingPlatform ≠ i`, the feet reached the
spike top or the overlap failed (the 2-pixel proximity test never fails). -/
theorem riding_continuity_above_floor (rand : Nat → Nat) (dt : ℚ) (k : Keys) (w : World)
    (i : Int) (pl : Rect) (hs : w.state = GameState.PLAYING)
    (hsp : w.standingPlatform = i) (h0 : 0 ≤ i)
    (hpl : (advance rand dt w).plats[i.toNat]? = some pl) :
    (w.py + w.vy * dt + 22 < 288 →
      castInt (moved rand dt k w).px + 22 > pl.x →
      castInt (moved rand dt k w).px < pl.x + pl.w →
      ∃ w1, update rand dt k w = some w1 ∧ w1.standingPlatform = i ∧
        w1.plats[i.toNat]? = some pl ∧ w1.py = (pl.y : ℚ) - 22 ∧ w1.playerY = pl.y - 22 ∧
        w1.playerX = castInt (moved rand dt k w).px) ∧
    (∀ w1, update rand dt k w = some w1 → w1.standingPlatform ≠ i →
      288 ≤ w.py + w.vy * dt + 22 ∨
        ¬ (castInt (moved rand dt k w).px + 22 > pl.x ∧
          castInt (moved rand dt k w).px < pl.x + pl.w)) := by
  have hne : w.standingPlatform ≠ -1 := by rw [hsp]; omega
  have h0w : 0 ≤ w.standingPlatform := by rw [hsp]; exact h0
  have hplw : (advance rand dt w).plats[w.standingPlatform.toNat]? = some pl := by
    rw [hsp]; exact hpl
  have hpy : (moved rand dt k w).py = w.py + w.vy * dt := by
    rw [moved_py, if_neg hne]
  have hnodeath : w.py + w.vy * dt + 22 < 288 → spikeCrossed (moved rand dt k w) = false := by
    intro hg
    rw [Bool.eq_false_iff]
    intro h
    simp only [spikeCrossed, Bool.and_eq_true, decide_eq_true_eq, player_h, spikeTop, HEIGHT,
      SPIKE_H, hpy] at h
    have h2 := h.2
    norm_num at h2
    linarith
  constructor
  · intro hg hx1 hx2
    have hg1 : (moved rand dt k w).py + 22 < (288 : ℚ) := by rw [hpy]; exact hg
    have ho : overHoriz (writeBack (moved rand dt k w)) pl = true := by
      simp only [overHoriz, writeBack, Bool.and_eq_true, decide_eq_true_eq, player_w]
      exact ⟨hx1, hx2⟩
    rw [update_riding rand dt k w pl hs (hnodeath hg) hg1 hne h0w hplw, if_pos ho]
    refine ⟨_, rfl, hsp, hpl, ?_, ?_, rfl⟩
    · simp [player_h]
    · simp [player_h]
  · intro w1 hu hd
    by_contra hcon
    rw [not_or, not_le, not_not] at hcon
    obtain ⟨hg, hx1, hx2⟩ := hcon
    have hg1 : (moved rand dt k w).py + 22 < (288 : ℚ) := by rw [hpy]; exact hg
    have ho : overHoriz (writeBack (moved rand dt k w)) pl = true := by
      simp only [overHoriz, writeBack, Bool.and_eq_true, decide_eq_true_eq, player_w]
      exact ⟨hx1, hx2⟩
    rw [update_riding rand dt k w pl hs (hnodeath hg) hg1 hne h0w hplw, if_pos ho] at hu
    simp only [Option.some.injEq] at hu
    subst hu
    exact hd hsp

/-- Witness for C4 (amended): the player rides platform 0 high in the field
(`py = 28`, platform at `y = 50`, at `y = 52` after the advance). -/
theorem riding_continuity_above_floor_witness :
    rideWorld.state = GameState.PLAYING ∧ rideWorld.standingPlatform = 0 ∧ (0 : Int) ≤ 0 ∧
    (advance zeroRand (33 / 1000) rideWorld).plats[(0 : Int).toNat]? =
      some { x := 100, y := 52, w := 40, h := 10 } ∧
    ((rideWorld.py + rideWorld.vy * (33 / 1000) + 22 < 288 →
      castInt (moved zeroRand (33 / 1000) noKeys rideWorld).px + 22 > 100 →
      castInt (moved zeroRand (33 / 1000) noKeys rideWorld).px < 100 + 40 →
      ∃ w1, update zeroRand (33 / 1000) noKeys rideWorld = some w1 ∧
        w1.standingPlatform = 0 ∧
        w1.plats[(0 : Int).toNat]? = some { x := 100, y := 52, w := 40, h := 10 } ∧
        w1.py = ((52 : Int) : ℚ) - 22 ∧ w1.playerY = 52 - 22 ∧
        w1.playerX = castInt (moved zeroRand (33 / 1000) noKeys rideWorld).px) ∧
    (∀ w1, update zeroRand (33 / 1000) noKeys rideWorld = some w1 →
      w1.standingPlatform ≠ 0 →
      288 ≤ rideWorld.py + rideWorld.vy * (33 / 1000) + 22 ∨
        ¬ (castInt (moved zeroRand (33 / 1000) noKeys rideWorld).px + 22 > 100 ∧
          castInt (moved zeroRand (33 / 1000) noKeys rideWorld).px < 100 + 40))) :=
  ⟨rfl, rfl, by decide, by decide!,
    riding_continuity_above_floor zeroRand (33 / 1000) noKeys rideWorld 0
      { x := 100, y := 52, w := 40, h := 10 } rfl rfl (by decide) (by decide!)⟩

/-- C5: platform geometry invariant.  For every `rand` stream, every platform of
the vector at creation, after any number of advance/recycle loops and after any
number of reshuffles has `30 ≤ w ≤ 65`, `x ≥ 0` and `x + w ≤ 300`. -/
theorem platform_geometry_invariant (rand : Nat → Nat) (ps : List Rect)
    (h : PlatsReachable rand ps) :
    ∀ p ∈ ps, 30 ≤ p.w ∧ p.w ≤ 65 ∧ 0 ≤ p.x ∧ p.x + p.w ≤ WIDTH := by
  induction h with
  | created c => exact createPlats_geometry rand PLAT_COUNT c
  | advanced dy c _ ih => exact advancePlats_geometry rand dy c _ ih
  | reshuffled c _ _ =>
    intro p hp
    have := reshufflePlats_geometry rand c _ p hp
    unfold WIDTH
    omega

/-- Witness for C5: the vector after creation, one reshuffle and one advance. -/
theorem platform_geometry_invariant_witness :
    PlatsReachable zeroRand
      (advancePlats zeroRand 2 144
        (reshufflePlats zeroRand 72 (createPlats zeroRand PLAT_COUNT 0))).1 ∧
    ∀ p ∈ (advancePlats zeroRand 2 144
        (reshufflePlats zeroRand 72 (createPlats zeroRand PLAT_COUNT 0))).1,
      30 ≤ p.w ∧ p.w ≤ 65 ∧ 0 ≤ p.x ∧ p.x + p.w ≤ WIDTH :=
  ⟨PlatsReachable.advanced 2 144 (PlatsReachable.reshuffled 72 (PlatsReachable.created 0)),
    platform_geometry_invariant zeroRand _
      (PlatsReachable.advanced 2 144 (PlatsReachable.reshuffled 72 (PlatsReachable.created 0)))⟩

/-- C6: jump gating.  In PLAYING, a jump key event (SPACE or UP) changes the
world if and only if `onGround` holds or `standingPlatform ≠ -1`; then it sets
`vy = -260`, `onGround = false`, `standingPlatform = -1` and nothing else; for
an airborne, unattached player it leaves the world unchanged. -/
theorem jump_gating (rand : Nat → Nat) (ticks : Nat) (w : World) (sym : Key)
    (hs : w.state = GameState.PLAYING) (hk : sym = Key.SPACE ∨ sym = Key.UP) :
    (handleEvent rand ticks w (Event.keydown sym) ≠ w ↔
      (w.onGround = true ∨ w.standingPlatform ≠ -1)) ∧
    ((w.onGround = true ∨ w.standingPlatform ≠ -1) →
      handleEvent rand ticks w (Event.keydown sym) =
        { w with vy := -260, onGround := false, standingPlatform := -1 }) ∧
    ((w.onGround = false ∧ w.standingPlatform = -1) →
      handleEvent rand ticks w (Event.keydown sym) = w) := by
  have hesc : sym ≠ Key.ESCAPE := by rcases hk with h | h <;> (rw [h]; decide)
  have hr : sym ≠ Key.r := by rcases hk with h | h <;> (rw [h]; decide)
  have hstate : ¬ (w.state = GameState.TITLE) := by rw [hs]; decide
  have hjump : (w.onGround = true ∨ w.standingPlatform ≠ -1) →
      handleEvent rand ticks w (Event.keydown sym) =
        { w with vy := -260, onGround := false, standingPlatform := -1 } := by
    intro hg
    simp only [handleEvent, hesc, if_false, hstate, hk, if_true, hg, hr, jumpVel]
  have hnone : ¬ (w.onGround = true ∨ w.standingPlatform ≠ -1) →
      handleEvent rand ticks w (Event.keydown sym) = w := by
    intro hg
    simp only [handleEvent, hesc, if_false, hstate, hk, if_true, hg, hr]
  refine ⟨⟨?_, ?_⟩, hjump, ?_⟩
  · intro hchg
    by_contra hg
    exact hchg (hnone hg)
  · intro hg heq
    rw [hjump hg] at heq
    rcases hg with hg | hg
    · have := congrArg World.onGround heq
      simp only at this
      rw [hg] at this
      exact absurd this (by decide)
    · have := congrArg World.standingPlatform heq
      simp only at this
      exact hg this.symm
  · rintro ⟨h1, h2⟩
    apply hnone
    rintro (h | h)
    · rw [h1] at h; exact absurd h (by decide)
    · exact h h2

/-- Witness for C6: SPACE pressed while the player rides a platform. -/
theorem jump_gating_witness :
    rideWorld.state = GameState.PLAYING ∧ (Key.SPACE = Key.SPACE ∨ Key.SPACE = Key.UP) ∧
    ((handleEvent zeroRand 0 rideWorld (Event.keydown Key.SPACE) ≠ rideWorld ↔
      (rideWorld.onGround = true ∨ rideWorld.standingPlatform ≠ -1)) ∧
    ((rideWorld.onGround = true ∨ rideWorld.standingPlatform ≠ -1) →
      handleEvent zeroRand 0 rideWorld (Event.keydown Key.SPACE) =
        { rideWorld with vy := -260, onGround := false, standingPlatform := -1 }) ∧
    ((rideWorld.onGround = false ∧ rideWorld.standingPlatform = -1) →
      handleEvent zeroRand 0 rideWorld (Event.keydown Key.SPACE) = rideWorld)) :=
  ⟨rfl, Or.inl rfl, jump_gating zeroRand 0 rideWorld Key.SPACE rfl (Or.inl rfl)⟩

/-- C7: death transition outcome.  A PLAYING update in which the hazard crossing
fires ends in TITLE with the player re-centered (`px = 139`, `py = 266`,
`vx = vy = 0`, `onGround`, `standingPlatform = -1`), `scrollSpeed = 80`, and
every platform re-randomized by the reshuffle: `y` in `[-300, 300)`, `w` in
`[30, 65)`, `x` in `[0, 300 - w)`. -/
theorem death_transition_outcome (rand : Nat → Nat) (dt : ℚ) (k : Keys) (w : World)
    (hs : w.state = GameState.PLAYING)
    (hcross : (if w.standingPlatform = -1 then w.vy + 600 * dt else w.vy) > 0 ∧
      w.py + 22 < 288 ∧
      288 ≤ w.py + (if w.standingPlatform = -1 then w.vy + 600 * dt else w.vy) * dt + 22) :
    ∃ w1, update rand dt k w = some w1 ∧ w1.state = GameState.TITLE ∧
      w1.px = 139 ∧ w1.py = 266 ∧ w1.vx = 0 ∧ w1.vy = 0 ∧ w1.onGround = true ∧
      w1.standingPlatform = -1 ∧ w1.scrollSpeed = 80 ∧
      w1.plats = reshufflePlats rand (advance rand dt w).randCalls (advance rand dt w).plats ∧
      w1.plats.length = w.plats.length ∧
      ∀ p ∈ w1.plats, -300 ≤ p.y ∧ p.y < 300 ∧ 30 ≤ p.w ∧ p.w < 65 ∧ 0 ≤ p.x ∧
        p.x < 300 - p.w := by
  have hc : spikeCrossed (moved rand dt k w) = true :=
    (spikeCrossed_integrated rand dt k w).mpr hcross
  rw [update_death rand dt k w hs hc]
  refine ⟨_, rfl, rfl, ?_, ?_, rfl, rfl, rfl, rfl, rfl, rfl, ?_, ?_⟩
  · norm_num [resetRun, centerPlayer, WIDTH, player_w]
  · norm_num [resetRun, centerPlayer, spikeTop, HEIGHT, SPIKE_H, player_h]
  · show (reshufflePlats rand _ (advancePlats rand _ _ w.plats).1).length = _
    rw [reshufflePlats_length, advancePlats_length]
  · intro p hp
    have := reshufflePlats_geometry rand _ _ p hp
    omega

/-- Witness for C7: feet at the spike top minus one (`py = 265`), `vy = 50`, not
riding, and a raw time step of 100 ms, which the frame driver clamps to
`0.033`. -/
theorem death_transition_outcome_witness :
    frameDt 0 100 = 33 / 1000 ∧ spikeFallWorld.state = GameState.PLAYING ∧
    ((if spikeFallWorld.standingPlatform = -1 then spikeFallWorld.vy + 600 * frameDt 0 100
        else spikeFallWorld.vy) > 0 ∧
      spikeFallWorld.py + 22 < 288 ∧
      288 ≤ spikeFallWorld.py +
        (if spikeFallWorld.standingPlatform = -1 then spikeFallWorld.vy + 600 * frameDt 0 100
          else spikeFallWorld.vy) * frameDt 0 100 + 22) ∧
    (∃ w1, update zeroRand (frameDt 0 100) noKeys spikeFallWorld = some w1 ∧
      w1.state = GameState.TITLE ∧
      w1.px = 139 ∧ w1.py = 266 ∧ w1.vx = 0 ∧ w1.vy = 0 ∧ w1.onGround = true ∧
      w1.standingPlatform = -1 ∧ w1.scrollSpeed = 80 ∧
      w1.plats = reshufflePlats zeroRand (advance zeroRand (frameDt 0 100) spikeFallWorld).randCalls
        (advance zeroRand (frameDt 0 100) spikeFallWorld).plats ∧
      w1.plats.length = spikeFallWorld.plats.length ∧
      ∀ p ∈ w1.plats, -300 ≤ p.y ∧ p.y < 300 ∧ 30 ≤ p.w ∧ p.w < 65 ∧ 0 ≤ p.x ∧
        p.x < 300 - p.w) :=
  ⟨by decide!, rfl, by decide!,
    death_transition_outcome zeroRand (frameDt 0 100) noKeys spikeFallWorld rfl (by decide!)⟩

/-- C8: manual reset.  In PLAYING, the R key event yields TITLE with the player
re-centered, `scrollSpeed = 80` and all platforms reshuffled; in TITLE the same
event changes nothing. -/
theorem manual_reset (rand : Nat → Nat) (ticks : Nat) (w : World) :
    (w.state = GameState.PLAYING →
      handleEvent rand ticks w (Event.keydown Key.r) =
          { resetRun rand w with state := GameState.TITLE } ∧
        (handleEvent rand ticks w (Event.keydown Key.r)).state = GameState.TITLE ∧
        (handleEvent rand ticks w (Event.keydown Key.r)).px = 139 ∧
        (handleEvent rand ticks w (Event.keydown Key.r)).py = 266 ∧
        (handleEvent rand ticks w (Event.keydown Key.r)).vx = 0 ∧
        (handleEvent rand ticks w (Event.keydown Key.r)).vy = 0 ∧
        (handleEvent rand ticks w (Event.keydown Key.r)).onGround = true ∧
        (handleEvent rand ticks w (Event.keydown Key.r)).standingPlatform = -1 ∧
        (handleEvent rand ticks w (Event.keydown Key.r)).scrollSpeed = 80 ∧
        (handleEvent rand ticks w (Event.keydown Key.r)).plats =
          reshufflePlats rand w.randCalls w.plats ∧
        (handleEvent rand ticks w (Event.keydown Key.r)).plats.length = w.plats.length ∧
        ∀ p ∈ (handleEvent rand ticks w (Event.keydown Key.r)).plats,
          -300 ≤ p.y ∧ p.y < 300 ∧ 30 ≤ p.w ∧ p.w < 65 ∧ 0 ≤ p.x ∧ p.x < 300 - p.w) ∧
    (w.state = GameState.TITLE → handleEvent rand ticks w (Event.keydown Key.r) = w) := by
  constructor
  · intro hs
    have hstate : ¬ (w.state = GameState.TITLE) := by rw [hs]; decide
    have he : handleEvent rand ticks w (Event.keydown Key.r) =
        { resetRun rand w with state := GameState.TITLE } := by
      simp [handleEvent, hstate]
    rw [he]
    refine ⟨rfl, rfl, ?_, ?_, rfl, rfl, rfl, rfl, rfl, rfl, ?_, ?_⟩
    · norm_num [resetRun, centerPlayer, WIDTH, player_w]
    · norm_num [resetRun, centerPlayer, spikeTop, HEIGHT, SPIKE_H, player_h]
    · show (reshufflePlats rand _ w.plats).length = _
      rw [reshufflePlats_length]
    · intro p hp
      have := reshufflePlats_geometry rand _ _ p hp
      omega
  · intro hs
    simp [handleEvent, hs]

/-- Witness for C8: the R key while riding in PLAYING, and in the TITLE state
the loop starts in. -/
theorem manual_reset_witness :
    rideWorld.state = GameState.PLAYING ∧
    (handleEvent zeroRand 0 rideWorld (Event.keydown Key.r)).state = GameState.TITLE ∧
    (initWorld zeroRand 0).state = GameState.TITLE ∧
    handleEvent zeroRand 0 (initWorld zeroRand 0) (Event.keydown Key.r) = initWorld zeroRand 0 :=
  ⟨rfl, ((manual_reset zeroRand 0 rideWorld).1 rfl).2.1, rfl,
    (manual_reset zeroRand 0 (initWorld zeroRand 0)).2 rfl⟩

/-- C9: resting on the hazard top is safe and a fixed point.  A PLAYING update
that starts unattached with `vy = 0` and `py = 266` (feet at 288) does not take
the death transition and ends with `py = 266`, `vy = 0`, `onGround = true`,
`standingPlatform = -1`, for every time step and whatever the platforms are. -/
theorem resting_on_hazard_top_fixed (rand : Nat → Nat) (dt : ℚ) (k : Keys) (w : World)
    (hs : w.state = GameState.PLAYING) (hsp : w.standingPlatform = -1) (hvy : w.vy = 0)
    (hpy : w.py = 266) :
    ∃ w1, update rand dt k w = some w1 ∧ w1.state = GameState.PLAYING ∧ w1.py = 266 ∧
      w1.vy = 0 ∧ w1.onGround = true ∧ w1.standingPlatform = -1 := by
  have hc : spikeCrossed (moved rand dt k w) = false := by
    rw [Bool.eq_false_iff]
    intro h
    have h1 := ((spikeCrossed_integrated rand dt k w).mp h).2.1
    rw [hpy] at h1
    norm_num at h1
  have hg : (288 : ℚ) ≤ (moved rand dt k w).py + 22 := by
    rw [moved_py, if_pos hsp, hvy, hpy]
    nlinarith [mul_self_nonneg dt]
  rw [update_clamped rand dt k w hs hc hg]
  exact ⟨_, rfl, hs, rfl, rfl, rfl, rfl⟩

/-- Witness for C9: the player at rest on the spike top, one update of 33 ms. -/
theorem resting_on_hazard_top_fixed_witness :
    restWorld.state = GameState.PLAYING ∧ restWorld.standingPlatform = -1 ∧
    restWorld.vy = 0 ∧ restWorld.py = 266 ∧
    (∃ w1, update zeroRand (33 / 1000) noKeys restWorld = some w1 ∧
      w1.state = GameState.PLAYING ∧ w1.py = 266 ∧ w1.vy = 0 ∧ w1.onGround = true ∧
      w1.standingPlatform = -1) :=
  ⟨rfl, rfl, rfl, rfl,
    resting_on_hazard_top_fixed zeroRand (33 / 1000) noKeys restWorld rfl rfl rfl rfl⟩

/-- C10: riding-state invariant.  In every state of the loop (the state at entry
and the state at the end of each frame, under any inputs, clock readings and
`rand` results), if `standingPlatform ≠ -1` then `0 ≤ standingPlatform < 24`,
the index is valid in `plats`, `onGround` is true, `vy = 0`, and the feet are on
that platform's top edge: `py + 22 = plats[standingPlatform].y`. -/
theorem riding_state_invariant (rand : Nat → Nat) (w : World) (h : Reachable rand w)
    (hsp : w.standingPlatform ≠ -1) :
    0 ≤ w.standingPlatform ∧ w.standingPlatform < 24 ∧ w.plats.length = 24 ∧
      w.onGround = true ∧ w.vy = 0 ∧
      ∃ pl, w.plats[w.standingPlatform.toNat]? = some pl ∧ w.py + 22 = (pl.y : ℚ) := by
  obtain ⟨hlen, hinv⟩ := reachable_inv rand w h
  obtain ⟨h0, hlt, hg, hv, hpl⟩ := hinv hsp
  exact ⟨h0, hlt, hlen, hg, hv, hpl⟩

/-- Witness for C10: `landedWorld`, the state 22 frames into a run in which the
player starts the game, jumps and lands on platform 0. -/
theorem riding_state_invariant_witness :
    Reachable landRand landedWorld ∧ landedWorld.standingPlatform ≠ -1 ∧
    ((0 : Int) ≤ landedWorld.standingPlatform ∧ landedWorld.standingPlatform < 24 ∧
      landedWorld.plats.length = 24 ∧ landedWorld.onGround = true ∧ landedWorld.vy = 0 ∧
      ∃ pl, landedWorld.plats[landedWorld.standingPlatform.toNat]? = some pl ∧
        landedWorld.py + 22 = (pl.y : ℚ)) :=
  ⟨reachable_runFrames landRand (jumpFrames 21) (initWorld landRand 0) landedWorld
      (Reachable.init 0) (by decide!),
    by decide,
    riding_state_invariant landRand landedWorld
      (reachable_runFrames landRand (jumpFrames 21) (initWorld landRand 0) landedWorld
        (Reachable.init 0) (by decide!))
      (by decide)⟩

/-- C11, as stated, fails.  The loop starts in TITLE with scroll speed 80; one
idle frame of 33 ms stays in TITLE and leaves the scroll speed at 80.099, and a
start input on that state enters PLAYING with scroll speed 80.099, not 80. -/
theorem scroll_speed_title_counterexample :
    (initWorld zeroRand 0).state = GameState.TITLE ∧
      (initWorld zeroRand 0).scrollSpeed = 80 ∧
      (frame zeroRand { events := [], now := 33, keys := noKeys }
        (initWorld zeroRand 0)).map World.state = some GameState.TITLE ∧
      (frame zeroRand { events := [], now := 33, keys := noKeys }
        (initWorld zeroRand 0)).map World.scrollSpeed = some (80099 / 1000) ∧
      (frame zeroRand { events := [], now := 33, keys := noKeys }
        (initWorld zeroRand 0)).map
          (fun w => (handleEvent zeroRand 40 w (Event.keydown Key.RETURN)).state) =
        some GameState.PLAYING ∧
      (frame zeroRand { events := [], now := 33, keys := noKeys }
        (initWorld zeroRand 0)).map
          (fun w => (handleEvent zeroRand 40 w (Event.keydown Key.RETURN)).scrollSpeed) =
        some (80099 / 1000) := by
  decide!

/-- C11, amended: the scroll speed ramps in both states.  An event keeps the
scroll speed or resets it to 80; an update adds `3 * dt` to it or (on a death)
resets it to 80, and the time step of a frame is never negative, so the scroll
speed never decreases except by a reset to 80; an update in TITLE adds `3 * dt`
like one in PLAYING; a start input enters PLAYING with the scroll speed
unchanged, which in every state of the loop is at least 80. -/
theorem scroll_speed_ramp (rand : Nat → Nat) (w : World) :
    (∀ ticks e, (handleEvent rand ticks w e).scrollSpeed = w.scrollSpeed ∨
      (handleEvent rand ticks w e).scrollSpeed = 80) ∧
    (∀ dt k w1, update rand dt k w = some w1 →
      w1.scrollSpeed = w.scrollSpeed + 3 * dt ∨ w1.scrollSpeed = 80) ∧
    (∀ prevTicks now, 0 ≤ frameDt prevTicks now) ∧
    (∀ dt k w1, w.state = GameState.TITLE → update rand dt k w = some w1 →
      w1.scrollSpeed = w.scrollSpeed + 3 * dt) ∧
    (∀ ticks sym, w.state = GameState.TITLE → (sym = Key.RETURN ∨ sym = Key.KP_ENTER) →
      (handleEvent rand ticks w (Event.keydown sym)).state = GameState.PLAYING ∧
        (handleEvent rand ticks w (Event.keydown sym)).scrollSpeed = w.scrollSpeed) ∧
    (Reachable rand w → 80 ≤ w.scrollSpeed) := by
  refine ⟨?_, ?_, fun p n => (frameDt_range p n).1, ?_, ?_, fun h => (reachable_bounds rand w h).1⟩
  · intro ticks e
    cases e with
    | quit => exact Or.inl rfl
    | other => exact Or.inl rfl
    | keydown sym =>
      simp only [handleEvent]
      split_ifs
      all_goals first
        | exact Or.inl rfl
        | exact Or.inr rfl
  · intro dt k w1 hu
    rcases update_scrollSpeed rand dt k w w1 hu with ⟨h1, _⟩ | ⟨_, _, h1, _⟩
    · exact Or.inl h1
    · exact Or.inr h1
  · intro dt k w1 hs hu
    rcases update_scrollSpeed rand dt k w w1 hu with ⟨h1, _⟩ | ⟨h2, _, _, _⟩
    · exact h1
    · rw [hs] at h2; exact absurd h2 (by decide)
  · intro ticks sym hs hk
    have hesc : sym ≠ Key.ESCAPE := by rcases hk with h | h <;> (rw [h]; decide)
    simp only [handleEvent, hesc, if_false, hs, if_true, hk]
    exact ⟨trivial, trivial⟩

/-- Witness for C11 (amended): the state the loop starts in, a TITLE update of
33 ms and a start input. -/
theorem scroll_speed_ramp_witness :
    (initWorld zeroRand 0).state = GameState.TITLE ∧
    update zeroRand (33 / 1000) noKeys (initWorld zeroRand 0) =
      some (title (advance zeroRand (33 / 1000) (initWorld zeroRand 0))) ∧
    (title (advance zeroRand (33 / 1000) (initWorld zeroRand 0))).scrollSpeed =
      (initWorld zeroRand 0).scrollSpeed + 3 * (33 / 1000) ∧
    ((handleEvent zeroRand 0 (initWorld zeroRand 0) (Event.keydown Key.RETURN)).state =
        GameState.PLAYING ∧
      (handleEvent zeroRand 0 (initWorld zeroRand 0) (Event.keydown Key.RETURN)).scrollSpeed =
        (initWorld zeroRand 0).scrollSpeed) ∧
    80 ≤ (initWorld zeroRand 0).scrollSpeed :=
  ⟨rfl, update_title zeroRand (33 / 1000) noKeys (initWorld zeroRand 0) rfl,
    (scroll_speed_ramp zeroRand (initWorld zeroRand 0)).2.2.2.1 (33 / 1000) noKeys _ rfl
      (update_title zeroRand (33 / 1000) noKeys (initWorld zeroRand 0) rfl),
    (scroll_speed_ramp zeroRand (initWorld zeroRand 0)).2.2.2.2.1 0 Key.RETURN rfl (Or.inl rfl),
    (scroll_speed_ramp zeroRand (initWorld zeroRand 0)).2.2.2.2.2 (Reachable.init 0)⟩

/-- C12: platform advance is in place.  One advance with the scroll step
`s = (int)(scrollSpeed * dt)` (the scroll speed just ramped) keeps the vector at
24 platforms in the same order, each of height 10: the platform of index `i`
comes from the old platform of index `i`; when `old y + s ≤ 300` it has
`y = old y + s` and the same `x`, `w`; otherwise it is recycled at the same
index with `y` in `[-80, -10]`, `w` in `[30, 65]`, `x` in `[0, 300 - w]`.  The
advance does not read the state: it is the same in TITLE and in PLAYING. -/
theorem platform_advance_in_place (rand : Nat → Nat) (dt : ℚ) (w : World)
    (hlen : w.plats.length = 24) (hh : ∀ p ∈ w.plats, p.h = 10) :
    (advance rand dt w).plats.length = 24 ∧
    (∀ (i : Nat) (p : Rect), w.plats[i]? = some p →
      ∃ q, (advance rand dt w).plats[i]? = some q ∧ q.h = 10 ∧
        (p.y + castInt ((w.scrollSpeed + 3 * dt) * dt) ≤ 300 →
          q.y = p.y + castInt ((w.scrollSpeed + 3 * dt) * dt) ∧ q.x = p.x ∧ q.w = p.w) ∧
        (300 < p.y + castInt ((w.scrollSpeed + 3 * dt) * dt) →
          -80 ≤ q.y ∧ q.y ≤ -10 ∧ 30 ≤ q.w ∧ q.w ≤ 65 ∧ 0 ≤ q.x ∧ q.x ≤ 300 - q.w)) ∧
    (∀ i : Nat, w.plats[i]? = none → (advance rand dt w).plats[i]? = none) ∧
    (∀ st : GameState,
      advance rand dt { w with state := st } = { advance rand dt w with state := st }) := by
  have hl : (advance rand dt w).plats.length = 24 := by rw [advance_plats_length, hlen]
  refine ⟨hl, ?_, ?_, fun st => rfl⟩
  · intro i p hp
    have hplats : (advance rand dt w).plats =
        (advancePlats rand (castInt ((w.scrollSpeed + 3 * dt) * dt)) w.randCalls w.plats).1 := rfl
    obtain ⟨c1, hc1⟩ := advancePlats_getElem rand (castInt ((w.scrollSpeed + 3 * dt) * dt))
      w.randCalls w.plats i p hp
    obtain ⟨h1, h2, h3⟩ := advanceOne_spec rand (castInt ((w.scrollSpeed + 3 * dt) * dt)) c1 p
    have hp10 : p.h = 10 := hh p (List.mem_iff_getElem?.mpr ⟨i, hp⟩)
    refine ⟨_, by rw [hplats]; exact hc1, h1.trans hp10, h2, ?_⟩
    intro hlt
    have := h3 hlt
    omega
  · intro i hi
    rw [List.getElem?_eq_none_iff] at hi ⊢
    rw [hl]; rw [hlen] at hi; exact hi

/-- Witness for C12: the advance of the state the loop starts in. -/
theorem platform_advance_in_place_witness :
    (initWorld zeroRand 0).plats.length = 24 ∧
    (∀ p ∈ (initWorld zeroRand 0).plats, p.h = 10) ∧
    (advance zeroRand (33 / 1000) (initWorld zeroRand 0)).plats.length = 24 :=
  ⟨(reachable_inv zeroRand _ (Reachable.init 0)).1,
    fun p hp => ((reachable_bounds zeroRand _ (Reachable.init 0)).2 p hp).2.2,
    (platform_advance_in_place zeroRand (33 / 1000) (initWorld zeroRand 0)
      (reachable_inv zeroRand _ (Reachable.init 0)).1
      (fun p hp => ((reachable_bounds zeroRand _ (Reachable.init 0)).2 p hp).2.2)).1⟩

/-- C13: first match wins in the landing scan.  In a PLAYING update in which the
scan runs with a falling player (unattached, `vy > 0` after gravity, no death
and no clamp: `curFeet < 288`), if `i` is the smallest index whose platform
(after the advance) is overlapped horizontally and has its top crossed
(`prevFeet ≤ pl.y ≤ curFeet`), the update ends with `standingPlatform = i` and
`py = plats[i].y - 22`, whatever the later platforms are. -/
theorem landing_first_match_wins (rand : Nat → Nat) (dt : ℚ) (k : Keys) (w : World)
    (i : Nat) (pl : Rect) (hs : w.state = GameState.PLAYING)
    (hsp : w.standingPlatform = -1) (hv : w.vy + 600 * dt > 0)
    (hg : w.py + (w.vy + 600 * dt) * dt + 22 < 288)
    (hpl : (advance rand dt w).plats[i]? = some pl)
    (hx1 : castInt (moved rand dt k w).px + 22 > pl.x)
    (hx2 : castInt (moved rand dt k w).px < pl.x + pl.w)
    (hp : w.py + 22 ≤ (pl.y : ℚ)) (hq : (pl.y : ℚ) ≤ w.py + (w.vy + 600 * dt) * dt + 22)
    (hmin : ∀ (j : Nat) (pl1 : Rect), j < i → (advance rand dt w).plats[j]? = some pl1 →
      ¬ (castInt (moved rand dt k w).px + 22 > pl1.x ∧
        castInt (moved rand dt k w).px < pl1.x + pl1.w ∧
        w.py + 22 ≤ (pl1.y : ℚ) ∧ (pl1.y : ℚ) ≤ w.py + (w.vy + 600 * dt) * dt + 22)) :
    ∃ w1, update rand dt k w = some w1 ∧ w1.state = GameState.PLAYING ∧
      w1.standingPlatform = (i : Int) ∧ w1.plats[i]? = some pl ∧
      w1.py = (pl.y : ℚ) - 22 ∧ w1.playerY = pl.y - 22 ∧ w1.vy = 0 ∧ w1.onGround = true := by
  have hpy : (moved rand dt k w).py = w.py + (w.vy + 600 * dt) * dt := by
    rw [moved_py, if_pos hsp]
  have hg1 : (moved rand dt k w).py + 22 < (288 : ℚ) := by rw [hpy]; exact hg
  have hc : spikeCrossed (moved rand dt k w) = false := by
    rw [Bool.eq_false_iff]
    intro h
    have h2 := ((spikeCrossed_integrated rand dt k w).mp h).2.2
    rw [if_pos hsp] at h2
    linarith
  rw [update_airborne rand dt k w hs hc hg1 hsp]
  have hmatch : ∀ pl1 : Rect,
      (overHoriz (writeBack { moved rand dt k w with onGround := false }) pl1 &&
        crossedTop (writeBack { moved rand dt k w with onGround := false })
          ((moved rand dt k w).prevPy + 22) ((moved rand dt k w).py + 22) pl1) = true ↔
      (castInt (moved rand dt k w).px + 22 > pl1.x ∧
        castInt (moved rand dt k w).px < pl1.x + pl1.w ∧
        w.py + 22 ≤ (pl1.y : ℚ) ∧ (pl1.y : ℚ) ≤ w.py + (w.vy + 600 * dt) * dt + 22) := by
    intro pl1
    simp only [Bool.and_eq_true, overHoriz, crossedTop, decide_eq_true_eq, writeBack,
      moved_vy, moved_py, moved_prevPy, hsp, if_true, player_w]
    constructor
    · rintro ⟨⟨a, b⟩, ⟨_, c⟩, d⟩
      exact ⟨a, b, c, d⟩
    · rintro ⟨a, b, c, d⟩
      exact ⟨⟨a, b⟩, ⟨hv, c⟩, d⟩
  rcases landingScan_spec (writeBack { moved rand dt k w with onGround := false })
      ((moved rand dt k w).prevPy + 22) ((moved rand dt k w).py + 22)
      (moved rand dt k w).plats 0 with ⟨_, hall⟩ | ⟨j, pl1, hj, hm, hfirst, he⟩
  · have h1 := hall i pl hpl
    rw [(hmatch pl).mpr ⟨hx1, hx2, hp, hq⟩] at h1
    exact absurd h1 (by decide)
  · have hji : j = i := by
      rcases Nat.lt_trichotomy j i with hlt | heq | hgt
      · exact absurd ((hmatch pl1).mp hm) (hmin j pl1 hlt hj)
      · exact heq
      · have h1 := hfirst i pl hgt hpl
        rw [(hmatch pl).mpr ⟨hx1, hx2, hp, hq⟩] at h1
        exact absurd h1 (by decide)
    subst hji
    have hpl1 : pl1 = pl := by
      have : some pl1 = some pl := hj.symm.trans hpl
      exact Option.some.inj this
    subst hpl1
    refine ⟨landOn (writeBack { moved rand dt k w with onGround := false }) pl1 (0 + j),
      by rw [he], hs, ?_, hpl, ?_, ?_, rfl, rfl⟩
    · simp [landOn]
    · simp [landOn, player_h]
    · simp [landOn, player_h]

/-- Witness for C13: the falling scenario with two platforms under the player.
After the advance platform 1 is at `y = 76` and platform 2 at `y = 74`; both
are overlapped and crossed, platform 0 is not overlapped, and the player lands
on platform 1, the first in the vector, not on the nearer platform 2. -/
theorem landing_first_match_wins_witness :
    twoPlatWorld.state = GameState.PLAYING ∧ twoPlatWorld.standingPlatform = -1 ∧
    twoPlatWorld.vy + 600 * (33 / 1000) > 0 ∧
    twoPlatWorld.py + (twoPlatWorld.vy + 600 * (33 / 1000)) * (33 / 1000) + 22 < 288 ∧
    (advance zeroRand (33 / 1000) twoPlatWorld).plats[1]? =
      some { x := 100, y := 76, w := 40, h := 10 } ∧
    (advance zeroRand (33 / 1000) twoPlatWorld).plats[2]? =
      some { x := 90, y := 74, w := 50, h := 10 } ∧
    castInt (moved zeroRand (33 / 1000) noKeys twoPlatWorld).px + 22 > 90 ∧
    castInt (moved zeroRand (33 / 1000) noKeys twoPlatWorld).px < 90 + 50 ∧
    twoPlatWorld.py + 22 ≤ ((74 : Int) : ℚ) ∧
    ((74 : Int) : ℚ) ≤
      twoPlatWorld.py + (twoPlatWorld.vy + 600 * (33 / 1000)) * (33 / 1000) + 22 ∧
    (∃ w1, update zeroRand (33 / 1000) noKeys twoPlatWorld = some w1 ∧
      w1.state = GameState.PLAYING ∧ w1.standingPlatform = ((1 : Nat) : Int) ∧
      w1.plats[1]? = some { x := 100, y := 76, w := 40, h := 10 } ∧
      w1.py = ((76 : Int) : ℚ) - 22 ∧ w1.playerY = 76 - 22 ∧ w1.vy = 0 ∧
      w1.onGround = true) :=
  ⟨rfl, rfl, by decide!, by decide!, by decide!, by decide!, by decide!, by decide!,
    by decide!, by decide!,
    landing_first_match_wins zeroRand (33 / 1000) noKeys twoPlatWorld 1
      { x := 100, y := 76, w := 40, h := 10 } rfl rfl (by decide!) (by decide!) (by decide!)
      (by decide!) (by decide!) (by decide!) (by decide!)
      (by
        intro j pl1 hj hpl1
        have hj0 : j = 0 := by omega
        subst hj0
        have h0 : (advance zeroRand (33 / 1000) twoPlatWorld).plats[0]? =
            some { x := 0, y := -174, w := 30, h := 10 } := by decide!
        rw [h0] at hpl1
        have : pl1 = { x := 0, y := -174, w := 30, h := 10 } := (Option.some.inj hpl1).symm
        subst this
        intro hcon
        have h1 : ¬ (castInt (moved zeroRand (33 / 1000) noKeys twoPlatWorld).px <
            (0 : Int) + 30) := by decide!
        exact h1 hcon.2.1)⟩

/-- C14, evaluated where the code breaks it.  `rideOddWorld` is the state 33
frames into a run of the loop: the player rides platform 0, whose top is at
`y = 287` (feet at 287).  The next update is no death, the ground clamp does
not fire (it tests the feet before the riding snap), the platform moves to
`y = 289` and the snap carries the player along: the update ends riding with
`py = 267`, feet at 289, below the spike top 288. -/
theorem hazard_floor_riding_overshoot :
    runFrames oddRand (jumpFrames 32) (initWorld oddRand 0) = some rideOddWorld ∧
      rideOddWorld.state = GameState.PLAYING ∧ rideOddWorld.standingPlatform = 0 ∧
      rideOddWorld.py + 22 = 287 ∧
      (advance oddRand (33 / 1000) rideOddWorld).plats[0]? =
        some { x := 120, y := 289, w := 40, h := 10 } ∧
      (update oddRand (33 / 1000) noKeys rideOddWorld).map World.state =
        some GameState.PLAYING ∧
      (update oddRand (33 / 1000) noKeys rideOddWorld).map World.standingPlatform = some 0 ∧
      (update oddRand (33 / 1000) noKeys rideOddWorld).map World.py = some 267 ∧
      ¬ ((267 : ℚ) + 22 ≤ 288) := by
  decide!

/-- C15, evaluated where the code breaks it.  `rideFastWorld` is a state of the
loop (5324 frames into a run): the player rides platform 0 at `y = 285`, feet
on its top, with scroll speed about 607, so the scroll step of the next 33 ms
update is 20 and the platform leaves the field (`285 + 20 > 300`).  It is
recycled at index 0 to `x = 120, y = -30, w = 45`, still under the player's
column, and the riding snap carries the player to its new top: the update ends
riding platform 0 with `py = -52`, not `263 + 20`. -/
theorem riding_recycle_relocation :
    Reachable rand120 rideFastWorld ∧
      rideFastWorld.state = GameState.PLAYING ∧ rideFastWorld.standingPlatform = 0 ∧
      rideFastWorld.py = 263 ∧
      rideFastWorld.plats[0]? = some { x := 120, y := 285, w := 45, h := 10 } ∧
      castInt ((rideFastWorld.scrollSpeed + 3 * (33 / 1000)) * (33 / 1000)) = 20 ∧
      (advance rand120 (33 / 1000) rideFastWorld).plats[0]? =
        some { x := 120, y := -30, w := 45, h := 10 } ∧
      (update rand120 (33 / 1000) noKeys rideFastWorld).map World.state =
        some GameState.PLAYING ∧
      (update rand120 (33 / 1000) noKeys rideFastWorld).map World.standingPlatform = some 0 ∧
      (update rand120 (33 / 1000) noKeys rideFastWorld).map World.py = some (-52) ∧
      (-52 : ℚ) ≠ 263 + 20 :=
  ⟨rideFastWorld_reachable, by decide!⟩

/-- C16: horizontal wall clamp.  At the end of every PLAYING update that does not
end in death, `0 ≤ px ≤ 278` (for every starting `px`, held keys and time
step), `px` is the integrated position after the wall clamp, and `vx` is the
value the held-input block chose; the wall clamp writes `px` only. -/
theorem horizontal_wall_clamp (rand : Nat → Nat) (dt : ℚ) (k : Keys) (w w1 : World)
    (hs : w.state = GameState.PLAYING) (hu : update rand dt k w = some w1)
    (h1 : w1.state = GameState.PLAYING) :
    0 ≤ w1.px ∧ w1.px ≤ 278 ∧
      w1.px = (walls (integrate dt (heldInput k w))).px ∧
      w1.vx = (heldInput k w).vx ∧
      ∀ v : World, walls v = { v with px := (walls v).px } := by
  have hc := alive_of_playing rand dt k w w1 hs hu h1
  obtain ⟨_, hpx, hvx, _, _, _⟩ := update_alive_fields rand dt k w w1 hs hc hu
  have hrange : ∀ v : World, 0 ≤ (walls v).px ∧ (walls v).px ≤ 278 := by
    intro v
    simp only [walls, player_w, WIDTH]
    split_ifs with ha hb hb
    all_goals norm_num at *
    all_goals exact ⟨by linarith, by linarith⟩
  refine ⟨?_, ?_, hpx, hvx, fun v => rfl⟩
  · rw [hpx]; exact (hrange _).1
  · rw [hpx]; exact (hrange _).2

/-- Witness for C16: the falling scenario with RIGHT held, one update of 33 ms. -/
theorem horizontal_wall_clamp_witness :
    fallWorld.state = GameState.PLAYING ∧
    update zeroRand (33 / 1000) { noKeys with right := true } fallWorld =
      some { fallLanded with px := 11296 / 100, vx := 120, playerX := 112 } ∧
    ({ fallLanded with px := 11296 / 100, vx := 120, playerX := 112 } : World).state =
      GameState.PLAYING ∧
    (0 ≤ ({ fallLanded with px := 11296 / 100, vx := 120, playerX := 112 } : World).px ∧
      ({ fallLanded with px := 11296 / 100, vx := 120, playerX := 112 } : World).px ≤ 278 ∧
      ({ fallLanded with px := 11296 / 100, vx := 120, playerX := 112 } : World).px =
        (walls (integrate (33 / 1000)
          (heldInput { noKeys with right := true } fallWorld))).px ∧
      ({ fallLanded with px := 11296 / 100, vx := 120, playerX := 112 } : World).vx =
        (heldInput { noKeys with right := true } fallWorld).vx ∧
      ∀ v : World, walls v = { v with px := (walls v).px }) :=
  ⟨rfl, by decide!, rfl,
    horizontal_wall_clamp zeroRand (33 / 1000) { noKeys with right := true } fallWorld
      { fallLanded with px := 11296 / 100, vx := 120, playerX := 112 } rfl (by decide!) rfl⟩

/-- C17: horizontal input mapping.  In every PLAYING update the horizontal
velocity the physics uses depends on the held keys only, not on the previous
`vx`: `-120` when only left (LEFT or A) is held, `+120` when only right (RIGHT
or D) is held, `0` when both or neither are; and it is the `vx` of the end state
of every update that does not end in death. -/
theorem horizontal_input_mapping (rand : Nat → Nat) (dt : ℚ) (k : Keys) (w : World)
    (hs : w.state = GameState.PLAYING) :
    (moved rand dt k w).vx =
        (if (k.left || k.a) = true ∧ (k.right || k.d) = false then -120
          else if (k.left || k.a) = false ∧ (k.right || k.d) = true then 120 else 0) ∧
      (∀ v : ℚ, (moved rand dt k { w with vx := v }).vx = (moved rand dt k w).vx) ∧
      (moved rand dt k w).px = (walls { w with px := w.px + (moved rand dt k w).vx * dt }).px ∧
      ∀ w1, update rand dt k w = some w1 → w1.state = GameState.PLAYING →
        w1.vx =
          (if (k.left || k.a) = true ∧ (k.right || k.d) = false then -120
            else if (k.left || k.a) = false ∧ (k.right || k.d) = true then 120 else 0) := by
  have hmap : (moved rand dt k w).vx =
      (if (k.left || k.a) = true ∧ (k.right || k.d) = false then -120
        else if (k.left || k.a) = false ∧ (k.right || k.d) = true then 120 else 0) := by
    show (heldInput k (advance rand dt w)).vx = _
    simp only [heldInput, moveSpeed]
    cases (k.left || k.a) <;> cases (k.right || k.d) <;> norm_num
  refine ⟨hmap, fun v => rfl, rfl, ?_⟩
  intro w1 hu h1
  have hc := alive_of_playing rand dt k w w1 hs hu h1
  obtain ⟨_, _, hvx, _, _, _⟩ := update_alive_fields rand dt k w w1 hs hc hu
  rw [hvx, hmap]

/-- Witness for C17: the falling scenario with A and RIGHT both held. -/
theorem horizontal_input_mapping_witness :
    fallWorld.state = GameState.PLAYING ∧
    ((moved zeroRand (33 / 1000) { noKeys with a := true, right := true } fallWorld).vx =
        (if (({ noKeys with a := true, right := true } : Keys).left ||
              ({ noKeys with a := true, right := true } : Keys).a) = true ∧
            (({ noKeys with a := true, right := true } : Keys).right ||
              ({ noKeys with a := true, right := true } : Keys).d) = false then -120
          else if (({ noKeys with a := true, right := true } : Keys).left ||
              ({ noKeys with a := true, right := true } : Keys).a) = false ∧
            (({ noKeys with a := true, right := true } : Keys).right ||
              ({ noKeys with a := true, right := true } : Keys).d) = true then 120 else 0) ∧
      (∀ v : ℚ,
        (moved zeroRand (33 / 1000) { noKeys with a := true, right := true }
          { fallWorld with vx := v }).vx =
        (moved zeroRand (33 / 1000) { noKeys with a := true, right := true } fallWorld).vx) ∧
      (moved zeroRand (33 / 1000) { noKeys with a := true, right := true } fallWorld).px =
        (walls { fallWorld with
          px := fallWorld.px +
            (moved zeroRand (33 / 1000) { noKeys with a := true, right := true }
              fallWorld).vx * (33 / 1000) }).px ∧
      ∀ w1, update zeroRand (33 / 1000) { noKeys with a := true, right := true } fallWorld =
          some w1 → w1.state = GameState.PLAYING →
        w1.vx =
          (if (({ noKeys with a := true, right := true } : Keys).left ||
                ({ noKeys with a := true, right := true } : Keys).a) = true ∧
              (({ noKeys with a := true, right := true } : Keys).right ||
                ({ noKeys with a := true, right := true } : Keys).d) = false then -120
            else if (({ noKeys with a := true, right := true } : Keys).left ||
                ({ noKeys with a := true, right := true } : Keys).a) = false ∧
              (({ noKeys with a := true, right := true } : Keys).right ||
                ({ noKeys with a := true, right := true } : Keys).d) = true then 120
            else 0)) :=
  ⟨rfl, horizontal_input_mapping zeroRand (33 / 1000) { noKeys with a := true, right := true }
    fallWorld rfl⟩

/-- C18: title idle pose.  Every update made in TITLE ends in TITLE with the
player at rest at `px = 139`, `py = 266` (feet on the spike top), `vx = vy = 0`,
`standingPlatform = -1`, whatever the previous player state, the held keys and
the time step; and a frame that starts in TITLE and gets no start input (ENTER)
is such a frame, so the state stays TITLE. -/
theorem title_idle_pose (rand : Nat → Nat) (w : World) (hs : w.state = GameState.TITLE) :
    (∀ (dt : ℚ) (k : Keys), ∃ w1, update rand dt k w = some w1 ∧
      w1.state = GameState.TITLE ∧ w1.px = 139 ∧ w1.py = 266 ∧ w1.vx = 0 ∧ w1.vy = 0 ∧
      w1.onGround = true ∧ w1.standingPlatform = -1 ∧ w1.playerX = 139 ∧ w1.playerY = 266) ∧
    (∀ inp : FrameInput,
      (∀ e ∈ inp.events,
        e.2 ≠ Event.keydown Key.RETURN ∧ e.2 ≠ Event.keydown Key.KP_ENTER) →
      ∃ w1, frame rand inp w = some w1 ∧
        w1.state = GameState.TITLE ∧ w1.px = 139 ∧ w1.py = 266 ∧ w1.vx = 0 ∧ w1.vy = 0 ∧
        w1.onGround = true ∧ w1.standingPlatform = -1 ∧ w1.playerX = 139 ∧
        w1.playerY = 266) := by
  have hupd : ∀ (v : World) (dt : ℚ) (k : Keys), v.state = GameState.TITLE →
      ∃ w1, update rand dt k v = some w1 ∧
        w1.state = GameState.TITLE ∧ w1.px = 139 ∧ w1.py = 266 ∧ w1.vx = 0 ∧ w1.vy = 0 ∧
        w1.onGround = true ∧ w1.standingPlatform = -1 ∧ w1.playerX = 139 ∧
        w1.playerY = 266 := by
    intro v dt k hv
    obtain ⟨h0, h1, h2, h3, h4, h5, h6, h7, h8⟩ := title_pose (advance rand dt v)
    exact ⟨_, update_title rand dt k v hv, h0.trans hv, h1, h2, h3, h4, h5, h6, h7, h8⟩
  refine ⟨fun dt k => hupd w dt k hs, ?_⟩
  intro inp hno
  have he := events_title rand inp.events w hs hno
  unfold frame
  generalize inp.events.foldl (fun acc e => handleEvent rand e.1 acc e.2) w = we at he
  exact hupd { we with prevTicks := inp.now } (frameDt we.prevTicks inp.now) inp.keys he

/-- Witness for C18: the state the loop starts in, with LEFT held and a jump key
pressed during the frame. -/
theorem title_idle_pose_witness :
    (initWorld zeroRand 0).state = GameState.TITLE ∧
    (∀ e ∈ [((10 : Nat), Event.keydown Key.SPACE)],
      e.2 ≠ Event.keydown Key.RETURN ∧ e.2 ≠ Event.keydown Key.KP_ENTER) ∧
    (∃ w1, frame zeroRand
        { events := [(10, Event.keydown Key.SPACE)], now := 33,
          keys := { noKeys with left := true } } (initWorld zeroRand 0) = some w1 ∧
      w1.state = GameState.TITLE ∧ w1.px = 139 ∧ w1.py = 266 ∧ w1.vx = 0 ∧ w1.vy = 0 ∧
      w1.onGround = true ∧ w1.standingPlatform = -1 ∧ w1.playerX = 139 ∧
      w1.playerY = 266) :=
  ⟨rfl, by decide,
    (title_idle_pose zeroRand (initWorld zeroRand 0) rfl).2
      { events := [(10, Event.keydown Key.SPACE)], now := 33,
        keys := { noKeys with left := true } } (by decide)⟩

/-- C19: platform vertical range invariant.  In every state of the loop (under
any inputs, clock readings and `rand` results; the time step of a frame is never
negative) every platform has `-300 ≤ y ≤ 300`, and so has every platform right
after the advance step of the next frame, whatever that frame's events are. -/
theorem platform_vertical_range (rand : Nat → Nat) (w : World) (h : Reachable rand w) :
    (∀ p ∈ w.plats, -300 ≤ p.y ∧ p.y ≤ 300) ∧
    (∀ inp : FrameInput,
      ∀ p ∈ (advance rand
          (frameDt (inp.events.foldl (fun acc e => handleEvent rand e.1 acc e.2) w).prevTicks
            inp.now)
          { inp.events.foldl (fun acc e => handleEvent rand e.1 acc e.2) w with
            prevTicks := inp.now }).plats,
        -300 ≤ p.y ∧ p.y ≤ 300) ∧
    (∀ dt : ℚ, 0 ≤ dt → ∀ p ∈ (advance rand dt w).plats, -300 ≤ p.y ∧ p.y ≤ 300) := by
  have hb := reachable_bounds rand w h
  refine ⟨fun p hp => ⟨(hb.2 p hp).1, (hb.2 p hp).2.1⟩, ?_, ?_⟩
  · intro inp
    obtain ⟨h1, h2⟩ := events_bounds rand inp.events w hb
    generalize inp.events.foldl (fun acc e => handleEvent rand e.1 acc e.2) w = we at h1 h2
    have hbe : 80 ≤ ({ we with prevTicks := inp.now } : World).scrollSpeed ∧
        PlatsOk ({ we with prevTicks := inp.now } : World).plats := ⟨h1, h2⟩
    obtain ⟨_, _, hok⟩ := advance_bounds rand (frameDt we.prevTicks inp.now)
      { we with prevTicks := inp.now } (frameDt_range _ _).1 hbe
    exact fun p hp => ⟨(hok p hp).1, (hok p hp).2.1⟩
  · intro dt hdt
    obtain ⟨_, _, hok⟩ := advance_bounds rand dt w hdt hb
    exact fun p hp => ⟨(hok p hp).1, (hok p hp).2.1⟩

/-- Witness for C19: the state the loop starts in. -/
theorem platform_vertical_range_witness :
    Reachable zeroRand (initWorld zeroRand 0) ∧
    (∀ p ∈ (initWorld zeroRand 0).plats, -300 ≤ p.y ∧ p.y ≤ 300) :=
  ⟨Reachable.init 0, (platform_vertical_range zeroRand (initWorld zeroRand 0) (Reachable.init 0)).1⟩

/-- C20: MM:SS digit decomposition.  For every `totalSeconds ≥ 0` the four
digits `m1, m2, s1, s2` computed by `drawMMSS` lie in `0..9`, with `s1 ≤ 5`, so
each `DIGIT_SEGS[d]` read of `drawDigit` is inside the table; and for
`totalSeconds < 6000` they give back the time:
`600 * m1 + 60 * m2 + 10 * s1 + s2 = totalSeconds`. -/
theorem mmss_digit_decomposition (t : Int) (h : 0 ≤ t) :
    (0 ≤ (drawMMSS t).1 ∧ (drawMMSS t).1 ≤ 9) ∧
    (0 ≤ (drawMMSS t).2.1 ∧ (drawMMSS t).2.1 ≤ 9) ∧
    (0 ≤ (drawMMSS t).2.2.1 ∧ (drawMMSS t).2.2.1 ≤ 5) ∧
    (0 ≤ (drawMMSS t).2.2.2 ∧ (drawMMSS t).2.2.2 ≤ 9) ∧
    (drawDigit (drawMMSS t).1).isSome = true ∧
    (drawDigit (drawMMSS t).2.1).isSome = true ∧
    (drawDigit (drawMMSS t).2.2.1).isSome = true ∧
    (drawDigit (drawMMSS t).2.2.2).isSome = true ∧
    (t < 6000 →
      600 * (drawMMSS t).1 + 60 * (drawMMSS t).2.1 + 10 * (drawMMSS t).2.2.1 +
        (drawMMSS t).2.2.2 = t) := by
  have hmm : Int.tdiv t 60 = t / 60 := Int.tdiv_eq_ediv h (by decide)
  have hss : Int.tmod t 60 = t % 60 := Int.tmod_eq_emod h (by decide)
  have hmm0 : 0 ≤ t / 60 := Int.ediv_nonneg h (by decide)
  have hss0 : 0 ≤ t % 60 := Int.emod_nonneg t (by decide)
  have hm1 : Int.tmod (Int.tdiv (t / 60) 10) 10 = t / 60 / 10 % 10 := by
    rw [Int.tdiv_eq_ediv hmm0 (by decide),
      Int.tmod_eq_emod (Int.ediv_nonneg hmm0 (by decide)) (by decide)]
  have hm2 : Int.tmod (t / 60) 10 = t / 60 % 10 := Int.tmod_eq_emod hmm0 (by decide)
  have hs1 : Int.tdiv (t % 60) 10 = t % 60 / 10 := Int.tdiv_eq_ediv hss0 (by decide)
  have hs2 : Int.tmod (t % 60) 10 = t % 60 % 10 := Int.tmod_eq_emod hss0 (by decide)
  have hdigit : ∀ d : Int, 0 ≤ d → d ≤ 9 → (drawDigit d).isSome = true := by
    intro d h0 h9
    have hd : d = 0 ∨ d = 1 ∨ d = 2 ∨ d = 3 ∨ d = 4 ∨ d = 5 ∨ d = 6 ∨ d = 7 ∨ d = 8 ∨
        d = 9 := by omega
    rcases hd with rfl | rfl | rfl | rfl | rfl | rfl | rfl | rfl | rfl | rfl <;> rfl
  simp only [drawMMSS, hmm, hss, hm1, hm2, hs1, hs2]
  have b1 : 0 ≤ t / 60 / 10 % 10 ∧ t / 60 / 10 % 10 ≤ 9 := by omega
  have b2 : 0 ≤ t / 60 % 10 ∧ t / 60 % 10 ≤ 9 := by omega
  have b3 : 0 ≤ t % 60 / 10 ∧ t % 60 / 10 ≤ 5 := by omega
  have b4 : 0 ≤ t % 60 % 10 ∧ t % 60 % 10 ≤ 9 := by omega
  refine ⟨b1, b2, b3, b4, hdigit _ b1.1 b1.2, hdigit _ b2.1 b2.2,
    hdigit _ b3.1 (by omega), hdigit _ b4.1 b4.2, ?_⟩
  intro hlt
  omega

/-- Witness for C20: 59 minutes 59 seconds. -/
theorem mmss_digit_decomposition_witness :
    (0 : Int) ≤ 3599 ∧ drawMMSS 3599 = (5, 9, 5, 9) ∧
    ((0 ≤ (drawMMSS 3599).1 ∧ (drawMMSS 3599).1 ≤ 9) ∧
    (0 ≤ (drawMMSS 3599).2.1 ∧ (drawMMSS 3599).2.1 ≤ 9) ∧
    (0 ≤ (drawMMSS 3599).2.2.1 ∧ (drawMMSS 3599).2.2.1 ≤ 5) ∧
    (0 ≤ (drawMMSS 3599).2.2.2 ∧ (drawMMSS 3599).2.2.2 ≤ 9) ∧
    (drawDigit (drawMMSS 3599).1).isSome = true ∧
    (drawDigit (drawMMSS 3599).2.1).isSome = true ∧
    (drawDigit (drawMMSS 3599).2.2.1).isSome = true ∧
    (drawDigit (drawMMSS 3599).2.2.2).isSome = true ∧
    ((3599 : Int) < 6000 →
      600 * (drawMMSS 3599).1 + 60 * (drawMMSS 3599).2.1 + 10 * (drawMMSS 3599).2.2.1 +
        (drawMMSS 3599).2.2.2 = 3599)) :=
  ⟨by decide, by decide, mmss_digit_decomposition 3599 (by decide)⟩

end RectangleRun
